import Mathlib

/-!
# uBloxGPS: the UBX NAV-PVT byte parser

A shallow embedding of `uBloxGPS.h` / `uBloxGPS.cpp`.

Modelling conventions.

* Machine integers are natural numbers; `uint8_t` arithmetic is reduced mod 256,
  `uint16_t` mod 65536 and `uint32_t` mod 2^32 where the source can overflow.
* `struct NAVPVTMsg` has no padding (every member is naturally aligned) and
  `sizeof(NAVPVTMsg)` is 88.  The three header members, which the source
  accesses by name, are kept as fields.  The 84 bytes from `iTOW` to
  `reserved3`, which the source only writes through `uint8_t *PayloadPtr`,
  are kept as the list of their bytes in memory order; the members of the
  payload are read from those bytes little-endian (the byte order of the
  Arduino targets and of the UBX wire format).
* `PayloadPtr` is `none` for `NULL` and `some k` for
  `(uint8_t *)&WorkingPVT.iTOW + k`.  A store through it is defined only
  for `k < 84`; any other store makes the step undefined (`none`).
* `millis()` is an input: every `FeedMe` call receives the elapsed time in
  milliseconds at which it runs, and `millis` truncates it to 32 bits.
* The callback is an external function; each invocation is recorded in
  `CallbackLog` together with the parser members it can observe.
* `Producible` holds of the states a parser object can be in: the private
  members are as the constructor and `FeedMe` left them, the public ones hold
  anything.  In every such state the working record holds class 0x01 and
  ID 0x07 (`producible_invariant`).
* Theorems about an arbitrary parser state or record assume what the C types
  give for free where a proof needs it: a payload has 84 bytes, a byte is
  below 256 (`NAVPVTMsg.WF` for a record).
-/

set_option maxRecDepth 100000

namespace uBloxGPS

/-! ## Constants of `uBloxGPS.h` -/

def UBLOX_HEADER1 : Nat := 0xB5
def UBLOX_HEADER2 : Nat := 0x62
def CLASSNAV : Nat := 0x01
def NAMEPVT : Nat := 0x07
def NAVPVT_LENGTH : Nat := 84
def FIXTYPE_NOFIX : Nat := 0x00
def FIXTYPE_DEADREC : Nat := 0x01
def FIXTYPE_2D : Nat := 0x02
def FIXTYPE_3D : Nat := 0x03
def FIXTYPE_GNSS_AND_DEADREC : Nat := 0x04
def FIXTYPE_TIMEONLY : Nat := 0x05

/-- The member `const int PVTPAYLOADLEN = 84` of the class. -/
def PVTPAYLOADLEN : Nat := 84

/-! ## `struct NAVPVTMsg` -/

/-- The message record: `Class`, `ID`, `PayloadLength` and the 84 payload
bytes `iTOW .. reserved3` in memory order. -/
structure NAVPVTMsg where
  Class : Nat
  ID : Nat
  PayloadLength : Nat
  payload : List Nat
deriving DecidableEq, Repr

namespace NAVPVTMsg

/-- The value of `sizeof(NAVPVTMsg)`: 4 header bytes and 84 payload bytes. -/
def sizeof : Nat := 88

/-- The members hold values of their C types. -/
def WF (m : NAVPVTMsg) : Prop :=
  m.Class < 256 ∧ m.ID < 256 ∧ m.PayloadLength < 65536 ∧
    m.payload.length = 84 ∧ ∀ b ∈ m.payload, b < 256

instance (m : NAVPVTMsg) : Decidable m.WF := by
  unfold WF; exact inferInstance

/-- The object representation `(uint8_t *)&m`: class, ID, the length low
byte first, then the payload. -/
def bytes (m : NAVPVTMsg) : List Nat :=
  m.Class % 256 :: m.ID % 256 :: m.PayloadLength % 256 ::
    m.PayloadLength / 256 % 256 :: m.payload

/-- The member `fixType`, the byte at payload offset 20. -/
def fixType (m : NAVPVTMsg) : Nat := m.payload.getD 20 0

end NAVPVTMsg

/-! ## The class `uBloxGPS` -/

/-- What a callback invocation can observe through its argument. -/
structure Observed where
  PVT : NAVPVTMsg
  CRC_OK : Bool
  MessageNumber : Nat
  FixNumber : Nat
  LastValidPositionAge : Nat
  ParserState : Nat
deriving DecidableEq, Repr

/-- The member variables of the class, and the log of callback invocations. -/
structure State where
  PVT : NAVPVTMsg
  FixNumber : Nat
  MessageNumber : Nat
  CRC_OK : Bool
  WorkingPVT : NAVPVTMsg
  ParserState : Nat
  PayloadLength : Nat
  LastValidPositionAge : Nat
  PayloadCount : Nat
  PayloadPtr : Option Nat
  lengthbyte1 : Nat
  lengthbye2 : Nat
  CK_A : Nat
  CK_B : Nat
  PositionFixCallback : Option Nat
  CallbackLog : List Observed
deriving DecidableEq, Repr

/-- The Arduino clock `millis()`: elapsed milliseconds as `uint32_t`. -/
def millis (t : Nat) : Nat := t % 2 ^ 32

/-- The loop of `CalcChecksum`: `n` iterations remain, `i` is the index. -/
def CalcChecksum.loop (buff : List Nat) : Nat → Nat → Nat → Nat → Nat × Nat
  | 0, _, a, b => (a, b)
  | n + 1, i, a, b =>
    let a1 := (a + buff.getD i 0) % 256
    let b1 := (b + a1) % 256
    CalcChecksum.loop buff n (i + 1) a1 b1

/-- The function `uBloxGPS::CalcChecksum(buff, len)`. -/
def CalcChecksum (buff : List Nat) (len : Nat) : Nat :=
  let r := CalcChecksum.loop buff len 0 0 0
  ((r.1 <<< 8) + r.2) % 65536

/-- The constructor `uBloxGPS::uBloxGPS()`, run at time `t`.  `PVT` and the
members of `WorkingPVT` it does not assign are indeterminate: they are the
arguments `pvt0` and `work0`. -/
def ctor (t : Nat) (pvt0 work0 : NAVPVTMsg) : State :=
  { PVT := pvt0
    FixNumber := 0
    MessageNumber := 0
    CRC_OK := false
    WorkingPVT := { work0 with Class := CLASSNAV, ID := NAMEPVT }
    ParserState := 0
    PayloadLength := 0
    LastValidPositionAge := millis t
    PayloadCount := 0
    PayloadPtr := none
    lengthbyte1 := 0
    lengthbye2 := 0
    CK_A := 0
    CK_B := 0
    PositionFixCallback := none
    CallbackLog := [] }

/-- The method `uBloxGPS::IsValidFixPosition()`. -/
def IsValidFixPosition (s : State) : Bool :=
  if s.CRC_OK && s.PVT.fixType != FIXTYPE_NOFIX && s.PVT.fixType != FIXTYPE_TIMEONLY then
    true
  else
    false

/-- The method `uBloxGPS::PositionFixAge()`, called at time `t`. -/
def PositionFixAge (t : Nat) (s : State) : Nat :=
  (millis t + 2 ^ 32 - s.LastValidPositionAge % 2 ^ 32) % 2 ^ 32

/-- The method `uBloxGPS::SetPositionUpdateCallbackFunction(functptr)`. -/
def SetPositionUpdateCallbackFunction (s : State) (functptr : Option Nat) : State :=
  { s with PositionFixCallback := functptr }

/-- The view of the parser a callback receives. -/
def observe (s : State) : Observed :=
  { PVT := s.PVT
    CRC_OK := s.CRC_OK
    MessageNumber := s.MessageNumber
    FixNumber := s.FixNumber
    LastValidPositionAge := s.LastValidPositionAge
    ParserState := s.ParserState }

/-- The statement `if (PositionFixCallback != NULL) PositionFixCallback(this)`. -/
def callCallback (s : State) : State :=
  match s.PositionFixCallback with
  | none => s
  | some _ => { s with CallbackLog := s.CallbackLog ++ [observe s] }

/-- The body of `if (check1 == check2)` in `case 8`. -/
def commit (t : Nat) (s : State) : State :=
  let s1 := { s with PVT := s.WorkingPVT }
  let s2 := { s1 with CRC_OK := true }
  let s3 := { s2 with MessageNumber := (s2.MessageNumber + 1) % 2 ^ 32 }
  if IsValidFixPosition s3 then
    let s4 := { s3 with LastValidPositionAge := millis t }
    let s5 := { s4 with FixNumber := (s4.FixNumber + 1) % 2 ^ 32 }
    callCallback s5
  else
    s3

/-- The method `uBloxGPS::ParseNAV_PVTMessage(ch)`, run at time `t`.  In
`case 6` the store `*PayloadPtr++ = ch` is defined when `PayloadPtr` points at
one of the 84 payload bytes of `WorkingPVT`; a `ParserState` outside 0..8
matches no `case` and the call does nothing. -/
def ParseNAV_PVTMessage (t : Nat) (s : State) (ch : Nat) : Option State :=
  match s.ParserState with
  | 0 =>
    if ch = UBLOX_HEADER1 then some { s with ParserState := s.ParserState + 1 }
    else some s
  | 1 =>
    if ch = UBLOX_HEADER2 then some { s with ParserState := s.ParserState + 1 }
    else some { s with ParserState := 0 }
  | 2 =>
    if ch = s.WorkingPVT.Class then some { s with ParserState := s.ParserState + 1 }
    else some { s with ParserState := 0 }
  | 3 =>
    if ch = s.WorkingPVT.ID then some { s with ParserState := s.ParserState + 1 }
    else some { s with ParserState := 0 }
  | 4 =>
    some { s with lengthbyte1 := ch, ParserState := s.ParserState + 1 }
  | 5 =>
    let s1 := { s with lengthbye2 := ch }
    let s2 := { s1 with PayloadLength := (s1.lengthbye2 <<< 8) + s1.lengthbyte1 }
    let s3 := { s2 with
      WorkingPVT := { s2.WorkingPVT with PayloadLength := s2.PayloadLength % 65536 } }
    some { s3 with PayloadPtr := some 0, PayloadCount := 0, ParserState := s3.ParserState + 1 }
  | 6 =>
    match s.PayloadPtr with
    | none => none
    | some k =>
      if k < 84 then
        let s1 := { s with
          WorkingPVT := { s.WorkingPVT with payload := s.WorkingPVT.payload.set k ch }
          PayloadPtr := some (k + 1) }
        let s2 := { s1 with PayloadCount := s1.PayloadCount + 1 }
        if s2.PayloadCount = PVTPAYLOADLEN then
          some { s2 with ParserState := s2.ParserState + 1 }
        else some s2
      else none
  | 7 =>
    some { s with CK_A := ch, ParserState := s.ParserState + 1 }
  | 8 =>
    let s1 := { s with CK_B := ch }
    let check1 := CalcChecksum s1.WorkingPVT.bytes NAVPVTMsg.sizeof
    let check2 := ((s1.CK_A <<< 8) + s1.CK_B) % 65536
    let s2 := if check1 = check2 then commit t s1 else { s1 with CRC_OK := false }
    some { s2 with ParserState := 0 }
  | _ => some s

/-- The method `uBloxGPS::FeedMe(ch)`, run at time `t`. -/
def FeedMe (t : Nat) (s : State) (ch : Nat) : Option State :=
  ParseNAV_PVTMessage t s ch

/-- Feeding a byte sequence one `FeedMe` call at a time: the first byte is fed
by call number `i`, the next by call `i + 1`, and call `n` runs at time
`clk n`. -/
def feedAll (clk : Nat → Nat) : Nat → State → List Nat → Option State
  | _, s, [] => some s
  | i, s, ch :: rest =>
    match FeedMe (clk i) s ch with
    | none => none
    | some s1 => feedAll clk (i + 1) s1 rest

/-! ## The checksum as the specification words it -/

/-- One step of the specification's checksum: `CK_A = (CK_A + b) mod 256`,
then `CK_B = (CK_B + CK_A) mod 256`. -/
def specChecksumStep (acc : Nat × Nat) (b : Nat) : Nat × Nat :=
  ((acc.1 + b) % 256, (acc.2 + (acc.1 + b) % 256) % 256)

/-- The two accumulators of the specification after the bytes `bs`, both
starting at 0. -/
def specChecksumAcc (bs : List Nat) : Nat × Nat :=
  bs.foldl specChecksumStep (0, 0)

/-- The specification's result `(CK_A << 8) | CK_B`, as `256 * CK_A + CK_B`. -/
def specChecksum (bs : List Nat) : Nat :=
  256 * (specChecksumAcc bs).1 + (specChecksumAcc bs).2

/-! ## Auxiliary definitions for the proofs -/

/-- The payload `p` after the bytes `bs` are stored at offsets `k`, `k + 1`, ... -/
def pokes (p : List Nat) : Nat → List Nat → List Nat
  | _, [] => p
  | k, b :: bs => pokes (p.set k b) (k + 1) bs

/-- In state 6 `PayloadPtr` is `PayloadCount` bytes past `iTOW` and inside the
payload. -/
def Inv (s : State) : Prop :=
  s.ParserState = 6 → s.PayloadPtr = some s.PayloadCount ∧ s.PayloadCount < 84

/-- A lower bound on the number of `FeedMe` calls before one runs in state 8. -/
def dist (s : State) : Nat :=
  match s.ParserState with
  | 0 => 91
  | 1 => 90
  | 2 => 89
  | 3 => 88
  | 4 => 87
  | 5 => 86
  | 6 => if s.PayloadCount < 84 then 85 - s.PayloadCount else 1
  | 7 => 1
  | 8 => 0
  | _ => 1

/-- The committed record, the flag, the counters, the time stamp and the
callback log of `s1` are those of `s`. -/
def sameStore (s s1 : State) : Prop :=
  s1.PVT = s.PVT ∧ s1.CRC_OK = s.CRC_OK ∧ s1.MessageNumber = s.MessageNumber ∧
    s1.FixNumber = s.FixNumber ∧ s1.LastValidPositionAge = s.LastValidPositionAge ∧
    s1.CallbackLog = s.CallbackLog

/-- The parser after the six header bytes and the 84 payload bytes `p`. -/
def loaded (s : State) (lo hi : Nat) (p : List Nat) : State :=
  { s with
    ParserState := 7
    lengthbyte1 := lo
    lengthbye2 := hi
    PayloadLength := (hi <<< 8) + lo
    WorkingPVT := { s.WorkingPVT with PayloadLength := ((hi <<< 8) + lo) % 65536, payload := p }
    PayloadPtr := some 84
    PayloadCount := 84 }

/-- The frame of the record `r`: the two sync bytes, the 88 bytes of `r`, and
the high and the low byte of `CalcChecksum` over those 88 bytes. -/
def encode (r : NAVPVTMsg) : List Nat :=
  [UBLOX_HEADER1, UBLOX_HEADER2] ++ r.bytes ++
    [CalcChecksum r.bytes NAVPVTMsg.sizeof / 256, CalcChecksum r.bytes NAVPVTMsg.sizeof % 256]

/-- The parser that has read all of `encode r` but its last byte. -/
def armed (s : State) (r : NAVPVTMsg) : State :=
  { loaded s (r.PayloadLength % 256) (r.PayloadLength / 256 % 256) r.payload with
    CK_A := CalcChecksum r.bytes NAVPVTMsg.sizeof / 256
    ParserState := 8 }

/-- The parser after the accepted frame `encode r`, whose last byte is read
at time `t`, starting from `s` in state 0. -/
def accepted (t : Nat) (s : State) (r : NAVPVTMsg) : State :=
  { PVT := r
    FixNumber := if r.fixType ≠ 0 ∧ r.fixType ≠ 5 then (s.FixNumber + 1) % 2 ^ 32 else s.FixNumber
    MessageNumber := (s.MessageNumber + 1) % 2 ^ 32
    CRC_OK := true
    WorkingPVT := r
    ParserState := 0
    PayloadLength := ((r.PayloadLength / 256 % 256) <<< 8) + r.PayloadLength % 256
    LastValidPositionAge :=
      if r.fixType ≠ 0 ∧ r.fixType ≠ 5 then millis t else s.LastValidPositionAge
    PayloadCount := 84
    PayloadPtr := some 84
    lengthbyte1 := r.PayloadLength % 256
    lengthbye2 := r.PayloadLength / 256 % 256
    CK_A := CalcChecksum r.bytes 88 / 256
    CK_B := CalcChecksum r.bytes 88 % 256
    PositionFixCallback := s.PositionFixCallback
    CallbackLog :=
      if (r.fixType ≠ 0 ∧ r.fixType ≠ 5) ∧ s.PositionFixCallback ≠ none then
        s.CallbackLog ++
          [{ PVT := r
             CRC_OK := true
             MessageNumber := (s.MessageNumber + 1) % 2 ^ 32
             FixNumber := (s.FixNumber + 1) % 2 ^ 32
             LastValidPositionAge := millis t
             ParserState := 8 }]
      else s.CallbackLog }

/-- The frame `F` with bit `bit` of its byte at index `pos` inverted. -/
def flipBit (F : List Nat) (pos bit : Nat) : List Nat :=
  F.set pos (F.getD pos 0 ^^^ 2 ^ bit)

/-- Whether the call `FeedMe(ch)` in state `s` commits a valid fix: it runs
`case 8`, the two checksums agree, and the `fixType` about to be copied into
`PVT` is neither 0 nor 5, so `LastValidPositionAge = millis()` is executed. -/
def commitsFix (s : State) (ch : Nat) : Bool :=
  s.ParserState == 8 &&
    CalcChecksum s.WorkingPVT.bytes NAVPVTMsg.sizeof == ((s.CK_A <<< 8) + ch) % 65536 &&
    s.WorkingPVT.fixType != FIXTYPE_NOFIX && s.WorkingPVT.fixType != FIXTYPE_TIMEONLY

/-- Whether no call commits a valid fix while the bytes are fed (calls numbered
from `i`, call `n` at time `clk n`). -/
def noFixCommitted (clk : Nat → Nat) : Nat → State → List Nat → Bool
  | _, _, [] => true
  | i, s, ch :: rest =>
    !commitsFix s ch &&
      match FeedMe (clk i) s ch with
      | none => true
      | some s1 => noFixCommitted clk (i + 1) s1 rest

/-- The `ParserState` the specification's table gives after `n` bytes fed to a
parser that starts in state 4 (AwaitLenLo): 5 after one byte, 6 after 2..85,
7 after 86, 8 after 87 and 0 after 88. -/
def framingState (n : Nat) : Nat :=
  if n = 0 then 4 else if n = 1 then 5 else if n ≤ 85 then 6 else if n = 86 then 7
  else if n = 87 then 8 else 0

/-- The weighted sum of the closed form: the sum over `i` of `(n - i) * b_i` for
the bytes `b_0 .. b_(n-1)`. -/
def weightedSum (bs : List Nat) : Nat :=
  ((List.range bs.length).map (fun i => (bs.length - i) * bs.getD i 0)).sum

/-- The states a parser object can be in.  The constructor builds it (`PVT` and
the unassigned members of `WorkingPVT` indeterminate, the working payload
having its 84 bytes); afterwards it changes only through `FeedMe`, through
`SetPositionUpdateCallbackFunction`, and through assignments to the public
members `PVT`, `FixNumber`, `MessageNumber` and `CRC_OK`.  Every other member
is private. -/
inductive Producible : State → Prop
  | built (t : Nat) (pvt0 work0 : NAVPVTMsg) (hw : work0.payload.length = 84) :
      Producible (ctor t pvt0 work0)
  | fed (t : Nat) (s s1 : State) (ch : Nat) (hs : Producible s)
      (hstep : FeedMe t s ch = some s1) : Producible s1
  | registered (s : State) (fp : Option Nat) (hs : Producible s) :
      Producible (SetPositionUpdateCallbackFunction s fp)
  | pvtAssigned (s : State) (v : NAVPVTMsg) (hs : Producible s) :
      Producible { s with PVT := v }
  | fixNumberAssigned (s : State) (v : Nat) (hs : Producible s) :
      Producible { s with FixNumber := v }
  | messageNumberAssigned (s : State) (v : Nat) (hs : Producible s) :
      Producible { s with MessageNumber := v }
  | crcAssigned (s : State) (v : Bool) (hs : Producible s) :
      Producible { s with CRC_OK := v }

/-! ## Concrete inputs -/

/-- A record whose 88 bytes are all zero. -/
def zeroMsg : NAVPVTMsg :=
  { Class := 0, ID := 0, PayloadLength := 0, payload := List.replicate 84 0 }

/-- A NAV-PVT record with declared length 84 and `fixType` 3; payload byte
`k` is `k` elsewhere. -/
def sampleRecord : NAVPVTMsg :=
  { Class := 0x01, ID := 0x07, PayloadLength := 84, payload := (List.range 84).set 20 3 }

/-- A freshly constructed parser. -/
def sampleState : State := ctor 1000 zeroMsg zeroMsg

/-- A parser in state 8 whose verified flag is set and whose received first
checksum byte does not belong to the working record. -/
def verifiedState8 : State :=
  { sampleState with CRC_OK := true, ParserState := 8, CK_A := 0xFF }

/-- A parser in state 0 whose message counter holds the largest `uint32_t`. -/
def fullCounterState : State :=
  { sampleState with MessageNumber := 2 ^ 32 - 1 }

/-- A parser in state 8 that has read the frame of `sampleRecord` but for its
last byte, `sampleLastByte`. -/
def sampleState8 : State := armed sampleState sampleRecord

/-- The last byte of the frame of `sampleRecord`. -/
def sampleLastByte : Nat := CalcChecksum sampleRecord.bytes 88 % 256

/-- A frame that declares a payload length of 16 (`lo` 0x10, `hi` 0x00) but
carries the 84 payload bytes of `sampleRecord` and the matching checksum. -/
def shortLengthFrame : List Nat :=
  0xB5 :: 0x62 :: 0x01 :: 0x07 :: 0x10 :: 0x00 :: (sampleRecord.payload ++
    [CalcChecksum (0x01 :: 0x07 :: 0x10 :: 0x00 :: sampleRecord.payload) 88 / 256,
      CalcChecksum (0x01 :: 0x07 :: 0x10 :: 0x00 :: sampleRecord.payload) 88 % 256])

/-- A parser in state 4 (AwaitLenLo). -/
def sampleState4 : State :=
  { sampleState with ParserState := 4 }

/-- A NAV-PVT record with `fixType` 5 (time only); payload byte `k` is `k`
elsewhere. -/
def timeOnlyRecord : NAVPVTMsg :=
  { Class := 0x01, ID := 0x07, PayloadLength := 84, payload := (List.range 84).set 20 5 }

/-! ## Theorems -/

theorem CalcChecksum.loop_eq_foldl (pre bs : List Nat) (a b : Nat) :
    CalcChecksum.loop (pre ++ bs) bs.length pre.length a b
      = bs.foldl specChecksumStep (a, b) := by
  induction bs generalizing pre a b with
  | nil => simp [CalcChecksum.loop]
  | cons x xs ih =>
    have h := ih (pre ++ [x]) ((a + x) % 256) ((b + (a + x) % 256) % 256)
    simp only [List.append_assoc, List.singleton_append, List.length_append,
      List.length_singleton] at h
    have hx : (pre ++ x :: xs).getD pre.length 0 = x := by
      rw [List.getD_eq_getElem?_getD, List.getElem?_append_right (le_refl _)]
      simp
    simp only [List.length_cons, CalcChecksum.loop, List.foldl_cons, specChecksumStep, hx]
    exact h

theorem specChecksumAcc_lt_aux (bs : List Nat) (acc : Nat × Nat)
    (h : acc.1 < 256 ∧ acc.2 < 256) :
    (bs.foldl specChecksumStep acc).1 < 256 ∧ (bs.foldl specChecksumStep acc).2 < 256 := by
  induction bs generalizing acc with
  | nil => simpa using h
  | cons x xs ih =>
    simp only [List.foldl_cons]
    apply ih
    simp only [specChecksumStep]
    exact ⟨Nat.mod_lt _ (by norm_num), Nat.mod_lt _ (by norm_num)⟩

theorem specChecksumAcc_lt (bs : List Nat) :
    (specChecksumAcc bs).1 < 256 ∧ (specChecksumAcc bs).2 < 256 :=
  specChecksumAcc_lt_aux bs (0, 0) (by norm_num)

theorem CalcChecksum_eq_spec (bs : List Nat) :
    CalcChecksum bs bs.length = specChecksum bs := by
  have h := CalcChecksum.loop_eq_foldl [] bs 0 0
  simp only [List.nil_append, List.length_nil] at h
  have hb := specChecksumAcc_lt bs
  unfold CalcChecksum specChecksum
  simp only [h, Nat.shiftLeft_eq]
  unfold specChecksumAcc at hb ⊢
  omega

theorem pokes_append (bs : List Nat) :
    ∀ (pre old : List Nat), old.length = bs.length →
      pokes (pre ++ old) pre.length bs = pre ++ bs := by
  induction bs with
  | nil =>
    intro pre old h
    have : old = [] := List.length_eq_zero.mp (by simpa using h)
    simp [pokes, this]
  | cons b bs ih =>
    intro pre old h
    cases old with
    | nil => simp at h
    | cons o olds =>
      have h1 : olds.length = bs.length := by simpa using h
      have h2 := ih (pre ++ [b]) olds h1
      simp only [pokes]
      have h3 : (pre ++ o :: olds).set pre.length b = (pre ++ [b]) ++ olds := by
        rw [List.set_append_right _ _ (le_refl _)]
        simp
      rw [h3]
      simpa using h2

theorem pokes_all (p bs : List Nat) (h : p.length = bs.length) : pokes p 0 bs = bs := by
  simpa using pokes_append bs [] p h

theorem feedAll_append (clk : Nat → Nat) (xs ys : List Nat) :
    ∀ (i : Nat) (s : State),
      feedAll clk i s (xs ++ ys)
        = (feedAll clk i s xs).bind (fun s1 => feedAll clk (i + xs.length) s1 ys) := by
  induction xs with
  | nil => intro i s; simp [feedAll]
  | cons x xs ih =>
    intro i s
    simp only [List.cons_append, feedAll, List.length_cons]
    cases h : FeedMe (clk i) s x with
    | none => simp
    | some s1 =>
      have : i + 1 + xs.length = i + (xs.length + 1) := by omega
      rw [← this]
      exact ih (i + 1) s1

theorem feed_header (clk : Nat → Nat) (i : Nat) (s : State) (lo hi : Nat) (rest : List Nat)
    (h0 : s.ParserState = 0) (hc : s.WorkingPVT.Class = 1) (hi7 : s.WorkingPVT.ID = 7) :
    feedAll clk i s (0xB5 :: 0x62 :: 0x01 :: 0x07 :: lo :: hi :: rest)
      = feedAll clk (i + 6)
          { s with
            ParserState := 6
            lengthbyte1 := lo
            lengthbye2 := hi
            PayloadLength := (hi <<< 8) + lo
            WorkingPVT := { s.WorkingPVT with PayloadLength := ((hi <<< 8) + lo) % 65536 }
            PayloadPtr := some 0
            PayloadCount := 0 } rest := by
  obtain ⟨PVT, FixNumber, MessageNumber, CRC_OK, ⟨wc, wi, wl, wp⟩, ParserState, PayloadLength,
    LastValidPositionAge, PayloadCount, PayloadPtr, lengthbyte1, lengthbye2, CK_A, CK_B,
    PositionFixCallback, CallbackLog⟩ := s
  simp only at h0 hc hi7
  subst h0 hc hi7
  simp [feedAll, FeedMe, ParseNAV_PVTMessage, UBLOX_HEADER1, UBLOX_HEADER2]

theorem feed_payload (clk : Nat → Nat) (bs : List Nat) :
    ∀ (i c : Nat) (s : State), s.ParserState = 6 → s.PayloadCount = c → s.PayloadPtr = some c →
      c < 84 → c + bs.length ≤ 84 →
      feedAll clk i s bs = some
        { s with
          WorkingPVT := { s.WorkingPVT with payload := pokes s.WorkingPVT.payload c bs }
          PayloadPtr := some (c + bs.length)
          PayloadCount := c + bs.length
          ParserState := if c + bs.length = 84 then 7 else 6 } := by
  induction bs with
  | nil =>
    intro i c s h6 hcnt hptr hc hle
    obtain ⟨PVT, FixNumber, MessageNumber, CRC_OK, ⟨wc, wi, wl, wp⟩, ParserState, PayloadLength,
      LastValidPositionAge, PayloadCount, PayloadPtr, lengthbyte1, lengthbye2, CK_A, CK_B,
      PositionFixCallback, CallbackLog⟩ := s
    simp only at h6 hcnt hptr
    subst h6 hcnt hptr
    have : ¬ (PayloadCount = 84) := by omega
    simp [feedAll, pokes, this]
  | cons b bs ih =>
    intro i c s h6 hcnt hptr hc hle
    obtain ⟨PVT, FixNumber, MessageNumber, CRC_OK, ⟨wc, wi, wl, wp⟩, ParserState, PayloadLength,
      LastValidPositionAge, PayloadCount, PayloadPtr, lengthbyte1, lengthbye2, CK_A, CK_B,
      PositionFixCallback, CallbackLog⟩ := s
    simp only at h6 hcnt hptr
    subst h6 hcnt hptr
    simp only [List.length_cons] at hle
    by_cases hlast : PayloadCount + 1 = 84
    · have hnil : bs = [] := List.length_eq_zero.mp (by omega)
      subst hnil
      simp [feedAll, FeedMe, ParseNAV_PVTMessage, PVTPAYLOADLEN, pokes, hc, hlast]
    · have hc1 : PayloadCount + 1 < 84 := by omega
      simp only [feedAll, FeedMe, ParseNAV_PVTMessage, PVTPAYLOADLEN, hc, hlast, if_true, if_false]
      rw [ih (i + 1) (PayloadCount + 1) _ rfl rfl rfl hc1 (by omega)]
      simp [pokes, Nat.add_assoc, Nat.add_comm 1]

theorem FeedMe_sameStore (t : Nat) (s s1 : State) (ch : Nat) (h8 : s.ParserState ≠ 8)
    (h : FeedMe t s ch = some s1) : sameStore s s1 := by
  unfold FeedMe ParseNAV_PVTMessage at h
  unfold sameStore
  split at h
  case h_7 =>
    cases hp : s.PayloadPtr with
    | none => simp [hp] at h
    | some k =>
      simp only [hp] at h
      split_ifs at h <;> (cases h; simp)
  case h_9 => contradiction
  all_goals first
    | (cases h; simp)
    | (split_ifs at h <;> (cases h; simp))

theorem FeedMe_dist (t : Nat) (s s1 : State) (ch : Nat) (h8 : s.ParserState ≠ 8)
    (h : FeedMe t s ch = some s1) : dist s ≤ dist s1 + 1 := by
  unfold FeedMe ParseNAV_PVTMessage at h
  split at h
  case h_7 heq =>
    cases hp : s.PayloadPtr with
    | none => simp [hp] at h
    | some k =>
      simp only [hp] at h
      split_ifs at h with h1 h2
      · cases h
        simp only [PVTPAYLOADLEN] at h2
        simp [dist, heq]
        split_ifs <;> omega
      · cases h
        simp only [PVTPAYLOADLEN] at h2
        simp [dist, heq]
        split_ifs <;> omega
  case h_9 => contradiction
  case h_10 h0 h1 h2 h3 h4 h5 h6 h7 h9 =>
    cases h
    unfold dist
    split <;> simp_all
  all_goals first
    | (cases h; simp_all [dist])
    | (split_ifs at h <;> (cases h; simp_all [dist]))

theorem FeedMe_Inv (t : Nat) (s : State) (ch : Nat) (hinv : Inv s) :
    ∃ s1, FeedMe t s ch = some s1 ∧ Inv s1 := by
  unfold FeedMe ParseNAV_PVTMessage
  split
  case h_7 heq =>
    obtain ⟨hp, hc⟩ := hinv heq
    simp only [hp, hc, if_true, PVTPAYLOADLEN]
    split_ifs with h2
    · exact ⟨_, rfl, by simp [Inv, heq]⟩
    · refine ⟨_, rfl, ?_⟩
      simp only [Inv]
      intro _
      simp only [Option.some.injEq, true_and]
      omega
  case h_10 => exact ⟨s, rfl, hinv⟩
  all_goals first
    | (refine ⟨_, rfl, ?_⟩; simp_all [Inv])
    | (split_ifs <;> (refine ⟨_, rfl, ?_⟩; simp_all [Inv]))

theorem sameStore_refl (s : State) : sameStore s s := by simp [sameStore]

theorem sameStore_trans {s s1 s2 : State} (h1 : sameStore s s1) (h2 : sameStore s1 s2) :
    sameStore s s2 := by
  unfold sameStore at *
  obtain ⟨a1, a2, a3, a4, a5, a6⟩ := h1
  obtain ⟨b1, b2, b3, b4, b5, b6⟩ := h2
  exact ⟨b1.trans a1, b2.trans a2, b3.trans a3, b4.trans a4, b5.trans a5, b6.trans a6⟩

theorem short_run (clk : Nat → Nat) (bs : List Nat) :
    ∀ (i : Nat) (s : State), Inv s → bs.length ≤ dist s →
      ∃ s1, feedAll clk i s bs = some s1 ∧ sameStore s s1 ∧ Inv s1 := by
  induction bs with
  | nil => intro i s hinv _; exact ⟨s, rfl, sameStore_refl s, hinv⟩
  | cons b bs ih =>
    intro i s hinv hlen
    simp only [List.length_cons] at hlen
    have h8 : s.ParserState ≠ 8 := by
      intro h
      have : dist s = 0 := by simp [dist, h]
      omega
    obtain ⟨s1, hs1, hinv1⟩ := FeedMe_Inv (clk i) s b hinv
    have hd := FeedMe_dist (clk i) s s1 b h8 hs1
    obtain ⟨s2, hs2, hsame, hinv2⟩ := ih (i + 1) s1 hinv1 (by omega)
    refine ⟨s2, ?_, sameStore_trans (FeedMe_sameStore (clk i) s s1 b h8 hs1) hsame, hinv2⟩
    simp only [feedAll, hs1, hs2]

theorem feed_frame_body (clk : Nat → Nat) (i : Nat) (s : State) (lo hi : Nat)
    (p rest : List Nat) (h0 : s.ParserState = 0) (hc : s.WorkingPVT.Class = 1)
    (hi7 : s.WorkingPVT.ID = 7) (hw : s.WorkingPVT.payload.length = 84) (hp : p.length = 84) :
    feedAll clk i s (0xB5 :: 0x62 :: 0x01 :: 0x07 :: lo :: hi :: (p ++ rest))
      = feedAll clk (i + 90) (loaded s lo hi p) rest := by
  rw [feed_header clk i s lo hi _ h0 hc hi7, feedAll_append]
  rw [feed_payload clk p (i + 6) 0 _ rfl rfl rfl (by norm_num) (by omega)]
  simp only [Option.some_bind, hp, Nat.zero_add, if_true]
  rw [pokes_all _ _ (by simpa using hw.trans hp.symm)]
  rfl

theorem feed_checksum (clk : Nat → Nat) (j : Nat) (s : State) (a b : Nat)
    (h7 : s.ParserState = 7) :
    feedAll clk j s [a, b] = FeedMe (clk (j + 1)) { s with CK_A := a, ParserState := 8 } b := by
  obtain ⟨PVT, FixNumber, MessageNumber, CRC_OK, W, ParserState, PayloadLength,
    LastValidPositionAge, PayloadCount, PayloadPtr, lengthbyte1, lengthbye2, CK_A, CK_B,
    PositionFixCallback, CallbackLog⟩ := s
  simp only at h7
  subst h7
  simp only [feedAll, FeedMe, ParseNAV_PVTMessage]

theorem FeedMe_8_match (t : Nat) (s : State) (ch : Nat) (h8 : s.ParserState = 8)
    (hck : CalcChecksum s.WorkingPVT.bytes 88 = ((s.CK_A <<< 8) + ch) % 65536) :
    FeedMe t s ch = some { commit t { s with CK_B := ch } with ParserState := 0 } := by
  unfold FeedMe ParseNAV_PVTMessage
  simp only [h8, NAVPVTMsg.sizeof, hck, if_true]

theorem FeedMe_8_mismatch (t : Nat) (s : State) (ch : Nat) (h8 : s.ParserState = 8)
    (hck : CalcChecksum s.WorkingPVT.bytes 88 ≠ ((s.CK_A <<< 8) + ch) % 65536) :
    FeedMe t s ch = some { s with CK_B := ch, CRC_OK := false, ParserState := 0 } := by
  unfold FeedMe ParseNAV_PVTMessage
  simp only [h8, NAVPVTMsg.sizeof, hck, if_false]

theorem encode_eq (r : NAVPVTMsg) (hrc : r.Class = 1) (hri : r.ID = 7) :
    encode r = 0xB5 :: 0x62 :: 0x01 :: 0x07 :: (r.PayloadLength % 256) ::
      (r.PayloadLength / 256 % 256) :: (r.payload ++
        [CalcChecksum r.bytes 88 / 256, CalcChecksum r.bytes 88 % 256]) := by
  simp [encode, NAVPVTMsg.bytes, hrc, hri, UBLOX_HEADER1, UBLOX_HEADER2, NAVPVTMsg.sizeof]

theorem length_bytes_roundtrip (n : Nat) (h : n < 65536) :
    (((n / 256 % 256) <<< 8) + n % 256) % 65536 = n := by
  simp only [Nat.shiftLeft_eq]
  omega

theorem armed_WorkingPVT (s : State) (r : NAVPVTMsg) (hc : s.WorkingPVT.Class = 1)
    (hi7 : s.WorkingPVT.ID = 7) (hr : r.WF) (hrc : r.Class = 1) (hri : r.ID = 7) :
    (armed s r).WorkingPVT = r := by
  obtain ⟨rc, ri, rl, rp⟩ := r
  simp only at hrc hri
  subst hrc hri
  simp only [armed, loaded, hc, hi7, NAVPVTMsg.mk.injEq, true_and, and_true]
  exact length_bytes_roundtrip rl hr.2.2.1

theorem checksum_bytes_roundtrip (bs : List Nat) (n : Nat) :
    (((CalcChecksum bs n / 256) <<< 8) + CalcChecksum bs n % 256) % 65536 = CalcChecksum bs n := by
  have h : CalcChecksum bs n < 65536 := by
    unfold CalcChecksum
    exact Nat.mod_lt _ (by norm_num)
  simp only [Nat.shiftLeft_eq]
  omega

theorem feed_to_armed (clk : Nat → Nat) (i : Nat) (s : State) (r : NAVPVTMsg)
    (h0 : s.ParserState = 0) (hc : s.WorkingPVT.Class = 1) (hi7 : s.WorkingPVT.ID = 7)
    (hw : s.WorkingPVT.payload.length = 84) (hr : r.WF) (hrc : r.Class = 1) (hri : r.ID = 7) :
    feedAll clk i s (encode r)
      = FeedMe (clk (i + 91)) (armed s r) (CalcChecksum r.bytes 88 % 256) := by
  rw [encode_eq r hrc hri, feed_frame_body clk i s _ _ _ _ h0 hc hi7 hw hr.2.2.2.1,
    feed_checksum clk (i + 90) _ _ _ rfl]
  rfl

theorem accept (clk : Nat → Nat) (i : Nat) (s : State) (r : NAVPVTMsg)
    (h0 : s.ParserState = 0) (hc : s.WorkingPVT.Class = 1) (hi7 : s.WorkingPVT.ID = 7)
    (hw : s.WorkingPVT.payload.length = 84) (hr : r.WF) (hrc : r.Class = 1) (hri : r.ID = 7) :
    feedAll clk i s (encode r)
      = some { commit (clk (i + 91)) { armed s r with CK_B := CalcChecksum r.bytes 88 % 256 } with
          ParserState := 0 } := by
  rw [feed_to_armed clk i s r h0 hc hi7 hw hr hrc hri]
  apply FeedMe_8_match _ _ _ rfl
  rw [armed_WorkingPVT s r hc hi7 hr hrc hri]
  exact (checksum_bytes_roundtrip r.bytes 88).symm

theorem commit_store (t : Nat) (s : State) :
    (commit t s).PVT = s.WorkingPVT ∧ (commit t s).CRC_OK = true ∧
      (commit t s).MessageNumber = (s.MessageNumber + 1) % 2 ^ 32 := by
  unfold commit callCallback
  simp only
  split_ifs
  · split <;> simp
  · simp

theorem feed_noise (clk : Nat → Nat) (noise : List Nat) :
    ∀ (i : Nat) (s : State), s.ParserState = 0 → (∀ b ∈ noise, b ≠ UBLOX_HEADER1) →
      feedAll clk i s noise = some s := by
  induction noise with
  | nil => intro i s _ _; rfl
  | cons b bs ih =>
    intro i s h0 hb
    have hb1 : b ≠ UBLOX_HEADER1 := hb b (List.mem_cons_self _ _)
    have hstep : FeedMe (clk i) s b = some s := by
      simp [FeedMe, ParseNAV_PVTMessage, h0, hb1]
    simp only [feedAll, hstep]
    exact ih (i + 1) s h0 (fun x hx => hb x (List.mem_cons_of_mem _ hx))

theorem feed_all_but_last (clk : Nat → Nat) (i : Nat) (s : State) (r : NAVPVTMsg)
    (h0 : s.ParserState = 0) (hc : s.WorkingPVT.Class = 1) (hi7 : s.WorkingPVT.ID = 7)
    (hw : s.WorkingPVT.payload.length = 84) (hr : r.WF) (hrc : r.Class = 1) (hri : r.ID = 7) :
    feedAll clk i s ((encode r).take 91) = some (armed s r) := by
  have e : (encode r).take 91 = 0xB5 :: 0x62 :: 0x01 :: 0x07 :: (r.PayloadLength % 256) ::
      (r.PayloadLength / 256 % 256) :: (r.payload ++ [CalcChecksum r.bytes 88 / 256]) := by
    rw [encode_eq r hrc hri]
    simp [List.take_append_eq_append_take, hr.2.2.2.1]
  rw [e, feed_frame_body clk i s _ _ _ _ h0 hc hi7 hw hr.2.2.2.1]
  simp only [feedAll, FeedMe, ParseNAV_PVTMessage, loaded]
  rfl

theorem accept_explicit (clk : Nat → Nat) (i : Nat) (s : State) (r : NAVPVTMsg)
    (h0 : s.ParserState = 0) (hc : s.WorkingPVT.Class = 1) (hi7 : s.WorkingPVT.ID = 7)
    (hw : s.WorkingPVT.payload.length = 84) (hr : r.WF) (hrc : r.Class = 1) (hri : r.ID = 7) :
    feedAll clk i s (encode r) = some (accepted (clk (i + 91)) s r) := by
  rw [accept clk i s r h0 hc hi7 hw hr hrc hri]
  have hl := length_bytes_roundtrip r.PayloadLength hr.2.2.1
  obtain ⟨PVT, FixNumber, MessageNumber, CRC_OK, ⟨wc, wi, wl, wp⟩, ParserState, PayloadLength,
    LastValidPositionAge, PayloadCount, PayloadPtr, lengthbyte1, lengthbye2, CK_A, CK_B,
    PositionFixCallback, CallbackLog⟩ := s
  obtain ⟨rc, ri, rl, rp⟩ := r
  simp only at h0 hc hi7 hrc hri hl
  subst h0 hc hi7 hrc hri
  by_cases hf : (rp.getD 20 0 ≠ 0 ∧ rp.getD 20 0 ≠ 5)
  · cases PositionFixCallback <;>
      simp [commit, armed, loaded, accepted, callCallback, observe, IsValidFixPosition,
        NAVPVTMsg.fixType, FIXTYPE_NOFIX, FIXTYPE_TIMEONLY, NAVPVTMsg.sizeof,
        List.getD_eq_getElem?_getD, hl] <;> simp_all [List.getD_eq_getElem?_getD]
  · have hf1 : rp[20]?.getD 0 = 0 ∨ rp[20]?.getD 0 = 5 := by
      rw [List.getD_eq_getElem?_getD] at hf
      omega
    rcases hf1 with h | h <;>
      simp [commit, armed, loaded, accepted, IsValidFixPosition,
        NAVPVTMsg.fixType, FIXTYPE_NOFIX, FIXTYPE_TIMEONLY, NAVPVTMsg.sizeof,
        List.getD_eq_getElem?_getD, hl, h]

theorem foldl_specChecksumStep_fst (bs : List Nat) (acc : Nat × Nat) (h : acc.1 < 256) :
    (bs.foldl specChecksumStep acc).1 = (acc.1 + bs.sum) % 256 := by
  induction bs generalizing acc with
  | nil =>
    simp only [List.foldl_nil, List.sum_nil, Nat.add_zero]
    exact (Nat.mod_eq_of_lt h).symm
  | cons x xs ih =>
    simp only [List.foldl_cons, List.sum_cons]
    rw [ih _ (Nat.mod_lt _ (by norm_num))]
    simp only [specChecksumStep]
    omega

theorem CalcChecksum_high (bs : List Nat) :
    CalcChecksum bs bs.length / 256 = bs.sum % 256 := by
  rw [CalcChecksum_eq_spec]
  have hb := specChecksumAcc_lt bs
  have h1 : (specChecksumAcc bs).1 = (0 + bs.sum) % 256 :=
    foldl_specChecksumStep_fst bs (0, 0) (by norm_num)
  unfold specChecksum
  omega

theorem sum_set_add (p : List Nat) :
    ∀ (j v : Nat), j < p.length → (p.set j v).sum + p.getD j 0 = p.sum + v := by
  induction p with
  | nil => intro j v h; simp at h
  | cons x xs ih =>
    intro j v h
    cases j with
    | zero => simp; omega
    | succ j =>
      have h1 : j < xs.length := by simpa using h
      have := ih j v h1
      simp only [List.set_cons_succ, List.sum_cons, List.getD_cons_succ]
      omega

theorem CalcChecksum_set_ne (hd p : List Nat) (j v : Nat) (hj : j < p.length)
    (hv : v < 256) (hx : p.getD j 0 < 256) (hne : v ≠ p.getD j 0) :
    CalcChecksum (hd ++ p.set j v) (hd ++ p).length ≠ CalcChecksum (hd ++ p) (hd ++ p).length := by
  intro h
  have hlen : (hd ++ p.set j v).length = (hd ++ p).length := by simp
  have h1 := CalcChecksum_high (hd ++ p.set j v)
  have h2 := CalcChecksum_high (hd ++ p)
  rw [hlen, h] at h1
  rw [h1] at h2
  have h3 := sum_set_add p j v hj
  simp only [List.sum_append] at h2
  omega

theorem xor_bit_lt (x bit : Nat) (hx : x < 256) (hbit : bit < 8) : x ^^^ 2 ^ bit < 256 := by
  have h2 : 2 ^ bit < 2 ^ 8 := Nat.pow_lt_pow_right (by norm_num) hbit
  exact Nat.xor_lt_two_pow (n := 8) hx h2

theorem xor_bit_ne (x bit : Nat) : x ^^^ 2 ^ bit ≠ x := by
  intro h
  have h1 : x ^^^ (x ^^^ 2 ^ bit) = x ^^^ x := by rw [h]
  rw [Nat.xor_cancel_left, Nat.xor_self] at h1
  exact absurd h1 (by positivity)

theorem reject_run (clk : Nat → Nat) (i : Nat) (s : State) (tail : List Nat)
    (h0 : s.ParserState = 0) (hbad : s.WorkingPVT.Class ≠ 1 ∨ s.WorkingPVT.ID ≠ 7)
    (hlen : tail.length ≤ 88) :
    ∃ s1, feedAll clk i s (0xB5 :: 0x62 :: 0x01 :: 0x07 :: tail) = some s1 ∧ sameStore s s1 := by
  have hinv : Inv s := by simp [Inv, h0]
  have hd : dist s = 91 := by simp [dist, h0]
  by_cases hc : s.WorkingPVT.Class = 1
  · have hid : s.WorkingPVT.ID ≠ 7 := by
      rcases hbad with h | h
      · exact absurd hc h
      · exact h
    obtain ⟨s1, hs1, hsame, _⟩ := short_run clk tail (i + 4) s hinv (by omega)
    refine ⟨s1, ?_, hsame⟩
    rw [← hs1]
    obtain ⟨PVT, FixNumber, MessageNumber, CRC_OK, ⟨wc, wi, wl, wp⟩, ParserState, PayloadLength,
      LastValidPositionAge, PayloadCount, PayloadPtr, lengthbyte1, lengthbye2, CK_A, CK_B,
      PositionFixCallback, CallbackLog⟩ := s
    simp only at h0 hc hid
    subst h0 hc
    have hid1 : ¬ (7 = wi) := fun h => hid h.symm
    simp [feedAll, FeedMe, ParseNAV_PVTMessage, UBLOX_HEADER1, UBLOX_HEADER2, hid1]
  · obtain ⟨s1, hs1, hsame, _⟩ := short_run clk (0x07 :: tail) (i + 3) s hinv
      (by simp only [List.length_cons]; omega)
    refine ⟨s1, ?_, hsame⟩
    rw [← hs1]
    obtain ⟨PVT, FixNumber, MessageNumber, CRC_OK, ⟨wc, wi, wl, wp⟩, ParserState, PayloadLength,
      LastValidPositionAge, PayloadCount, PayloadPtr, lengthbyte1, lengthbye2, CK_A, CK_B,
      PositionFixCallback, CallbackLog⟩ := s
    simp only at h0 hc
    subst h0
    have hc1 : ¬ (1 = wc) := fun h => hc h.symm
    simp [feedAll, FeedMe, ParseNAV_PVTMessage, UBLOX_HEADER1, UBLOX_HEADER2, hc1]

theorem feed_bad_frame (clk : Nat → Nat) (i : Nat) (s : State) (lo hi : Nat) (p : List Nat)
    (a b : Nat) (h0 : s.ParserState = 0) (hw : s.WorkingPVT.payload.length = 84)
    (hp : p.length = 84) (hlo : lo < 256) (hhi : hi < 256)
    (hbad : CalcChecksum (0x01 :: 0x07 :: lo :: hi :: p) 88 ≠ ((a <<< 8) + b) % 65536) :
    ∃ s1, feedAll clk i s (0xB5 :: 0x62 :: 0x01 :: 0x07 :: lo :: hi :: (p ++ [a, b])) = some s1 ∧
      s1.PVT = s.PVT ∧ s1.MessageNumber = s.MessageNumber ∧ s1.FixNumber = s.FixNumber ∧
      s1.LastValidPositionAge = s.LastValidPositionAge ∧ s1.CallbackLog = s.CallbackLog := by
  by_cases hgood : s.WorkingPVT.Class = 1 ∧ s.WorkingPVT.ID = 7
  · obtain ⟨hc, hi7⟩ := hgood
    rw [feed_frame_body clk i s lo hi p [a, b] h0 hc hi7 hw hp,
      feed_checksum clk (i + 90) _ a b rfl]
    refine ⟨_, FeedMe_8_mismatch _ _ _ rfl ?_, rfl, rfl, rfl, rfl, rfl⟩
    have hl : ((hi <<< 8) + lo) % 65536 % 256 = lo ∧ ((hi <<< 8) + lo) % 65536 / 256 % 256 = hi := by
      simp only [Nat.shiftLeft_eq]
      omega
    simpa [loaded, NAVPVTMsg.bytes, hc, hi7, hl.1, hl.2] using hbad
  · have hbad1 : s.WorkingPVT.Class ≠ 1 ∨ s.WorkingPVT.ID ≠ 7 := by
      by_cases hc : s.WorkingPVT.Class = 1
      · exact Or.inr (fun h => hgood ⟨hc, h⟩)
      · exact Or.inl hc
    obtain ⟨s1, hs1, hsame⟩ := reject_run clk i s (lo :: hi :: (p ++ [a, b])) h0 hbad1
      (by simp [hp])
    exact ⟨s1, hs1, hsame.1, hsame.2.2.1, hsame.2.2.2.1, hsame.2.2.2.2.1, hsame.2.2.2.2.2⟩

theorem flipBit_encode (r : NAVPVTMsg) (hrc : r.Class = 1) (hri : r.ID = 7) (j bit : Nat) :
    flipBit (encode r) (j + 6) bit
      = 0xB5 :: 0x62 :: 0x01 :: 0x07 :: (r.PayloadLength % 256) ::
        (r.PayloadLength / 256 % 256) ::
          (r.payload ++ [CalcChecksum r.bytes 88 / 256, CalcChecksum r.bytes 88 % 256]).set j
            ((r.payload ++ [CalcChecksum r.bytes 88 / 256, CalcChecksum r.bytes 88 % 256]).getD j 0
              ^^^ 2 ^ bit) := by
  rw [encode_eq r hrc hri]
  rfl

theorem FeedMe_expected_header (t : Nat) (s s1 : State) (ch : Nat)
    (h : FeedMe t s ch = some s1) :
    s1.WorkingPVT.Class = s.WorkingPVT.Class ∧ s1.WorkingPVT.ID = s.WorkingPVT.ID ∧
      s1.WorkingPVT.payload.length = s.WorkingPVT.payload.length := by
  unfold FeedMe ParseNAV_PVTMessage at h
  split at h
  case h_7 =>
    cases hp : s.PayloadPtr with
    | none => simp [hp] at h
    | some k =>
      simp only [hp] at h
      split_ifs at h <;> (cases h; simp)
  case h_9 =>
    simp only [Option.some.injEq] at h
    subst h
    unfold commit callCallback
    simp only
    split_ifs
    · split <;> simp
    · simp
    · simp
  all_goals first
    | (cases h; simp)
    | (split_ifs at h <;> (cases h; simp))

theorem reachable_expected_header (clk : Nat → Nat) (bs : List Nat) :
    ∀ (i : Nat) (s s1 : State), feedAll clk i s bs = some s1 →
      s1.WorkingPVT.Class = s.WorkingPVT.Class ∧ s1.WorkingPVT.ID = s.WorkingPVT.ID ∧
        s1.WorkingPVT.payload.length = s.WorkingPVT.payload.length := by
  induction bs with
  | nil =>
    intro i s s1 h
    simp only [feedAll, Option.some.injEq] at h
    subst h
    exact ⟨rfl, rfl, rfl⟩
  | cons b bs ih =>
    intro i s s1 h
    simp only [feedAll] at h
    cases hstep : FeedMe (clk i) s b with
    | none => simp [hstep] at h
    | some s2 =>
      simp only [hstep] at h
      obtain ⟨a1, a2, a3⟩ := FeedMe_expected_header (clk i) s s2 b hstep
      obtain ⟨b1, b2, b3⟩ := ih (i + 1) s2 s1 h
      exact ⟨b1.trans a1, b2.trans a2, b3.trans a3⟩

theorem FeedMe_commitsFix (t : Nat) (s : State) (ch : Nat) (h : commitsFix s ch = true) :
    ∃ s1, FeedMe t s ch = some s1 ∧ s1.LastValidPositionAge = millis t := by
  simp only [commitsFix, Bool.and_eq_true, beq_iff_eq, bne_iff_ne, ne_eq, FIXTYPE_NOFIX,
    FIXTYPE_TIMEONLY] at h
  obtain ⟨⟨⟨h8, hck⟩, hf0⟩, hf5⟩ := h
  refine ⟨_, FeedMe_8_match t s ch h8 hck, ?_⟩
  unfold commit callCallback
  simp only [IsValidFixPosition, FIXTYPE_NOFIX, FIXTYPE_TIMEONLY]
  simp [hf0, hf5]
  split <;> rfl

theorem FeedMe_not_commitsFix (t : Nat) (s s1 : State) (ch : Nat)
    (h : commitsFix s ch = false) (hs : FeedMe t s ch = some s1) :
    s1.LastValidPositionAge = s.LastValidPositionAge := by
  by_cases h8 : s.ParserState = 8
  · by_cases hck : CalcChecksum s.WorkingPVT.bytes 88 = ((s.CK_A <<< 8) + ch) % 65536
    · rw [FeedMe_8_match t s ch h8 hck] at hs
      simp only [Option.some.injEq] at hs
      subst hs
      have hf : ¬ (s.WorkingPVT.fixType ≠ 0 ∧ s.WorkingPVT.fixType ≠ 5) := by
        intro hf
        simp [commitsFix, h8, NAVPVTMsg.sizeof, hck, FIXTYPE_NOFIX, FIXTYPE_TIMEONLY, hf.1,
          hf.2] at h
      unfold commit
      simp only [IsValidFixPosition, FIXTYPE_NOFIX, FIXTYPE_TIMEONLY]
      have hf1 : s.WorkingPVT.fixType = 0 ∨ s.WorkingPVT.fixType = 5 := by omega
      rcases hf1 with hf1 | hf1 <;> simp [hf1]
    · rw [FeedMe_8_mismatch t s ch h8 hck] at hs
      simp only [Option.some.injEq] at hs
      subst hs
      rfl
  · exact (FeedMe_sameStore t s s1 ch h8 hs).2.2.2.2.1

theorem noFixCommitted_stamp (clk : Nat → Nat) (bs : List Nat) :
    ∀ (i : Nat) (s s1 : State), noFixCommitted clk i s bs = true →
      feedAll clk i s bs = some s1 → s1.LastValidPositionAge = s.LastValidPositionAge := by
  induction bs with
  | nil =>
    intro i s s1 _ h
    simp only [feedAll, Option.some.injEq] at h
    subst h
    rfl
  | cons b bs ih =>
    intro i s s1 hq h
    simp only [feedAll] at h
    simp only [noFixCommitted, Bool.and_eq_true, Bool.not_eq_true'] at hq
    cases hstep : FeedMe (clk i) s b with
    | none => simp [hstep] at h
    | some s2 =>
      simp only [hstep] at h hq
      exact (ih (i + 1) s2 s1 hq.2 h).trans (FeedMe_not_commitsFix (clk i) s s2 b hq.1 hstep)

theorem feed_lengths (clk : Nat → Nat) (i : Nat) (s : State) (lo hi : Nat) (rest : List Nat)
    (h4 : s.ParserState = 4) :
    feedAll clk i s (lo :: hi :: rest)
      = feedAll clk (i + 2)
          { s with
            ParserState := 6
            lengthbyte1 := lo
            lengthbye2 := hi
            PayloadLength := (hi <<< 8) + lo
            WorkingPVT := { s.WorkingPVT with PayloadLength := ((hi <<< 8) + lo) % 65536 }
            PayloadPtr := some 0
            PayloadCount := 0 } rest := by
  obtain ⟨PVT, FixNumber, MessageNumber, CRC_OK, ⟨wc, wi, wl, wp⟩, ParserState, PayloadLength,
    LastValidPositionAge, PayloadCount, PayloadPtr, lengthbyte1, lengthbye2, CK_A, CK_B,
    PositionFixCallback, CallbackLog⟩ := s
  simp only at h4
  subst h4
  simp [feedAll, FeedMe, ParseNAV_PVTMessage]

theorem FeedMe_8_state (t : Nat) (s : State) (ch : Nat) (h8 : s.ParserState = 8) :
    ∃ s1, FeedMe t s ch = some s1 ∧ s1.ParserState = 0 := by
  by_cases hck : CalcChecksum s.WorkingPVT.bytes 88 = ((s.CK_A <<< 8) + ch) % 65536
  · exact ⟨_, FeedMe_8_match t s ch h8 hck, rfl⟩
  · exact ⟨_, FeedMe_8_mismatch t s ch h8 hck, rfl⟩

theorem framing_run (clk : Nat → Nat) (i : Nat) (s : State) (lo hi : Nat) (p : List Nat)
    (a b : Nat) (h4 : s.ParserState = 4) (hp : p.length = 84) (n : Nat) (hn : n ≤ 88) :
    ∃ sn, feedAll clk i s ((lo :: hi :: (p ++ [a, b])).take n) = some sn ∧
      sn.ParserState = framingState n := by
  rcases n with _ | _ | m
  · exact ⟨s, rfl, by simp [framingState, h4]⟩
  · refine ⟨{ s with lengthbyte1 := lo, ParserState := 5 }, ?_, by simp [framingState]⟩
    simp [feedAll, FeedMe, ParseNAV_PVTMessage, h4]
  · have hm : m ≤ 86 := by omega
    simp only [List.take_succ_cons]
    rw [feed_lengths clk i s lo hi _ h4]
    by_cases hm84 : m ≤ 84
    · rw [List.take_append_of_le_length (by omega)]
      have hlen : (p.take m).length = m := by simp [hp, hm84]
      rw [feed_payload clk (p.take m) (i + 2) 0 _ rfl rfl rfl (by norm_num) (by omega)]
      refine ⟨_, rfl, ?_⟩
      show (if 0 + (p.take m).length = 84 then 7 else 6) = framingState (m + 1 + 1)
      rw [hlen]
      unfold framingState
      by_cases h84 : m = 84
      · subst h84
        rfl
      · rw [if_neg (by omega), if_neg (by omega), if_neg (by omega), if_pos (by omega)]
    · have htake : (p ++ [a, b]).take m = p ++ [a, b].take (m - 84) := by
        rw [List.take_append_eq_append_take, List.take_of_length_le (by omega), hp]
      rw [htake, feedAll_append,
        feed_payload clk p (i + 2) 0 _ rfl rfl rfl (by norm_num) (by omega)]
      simp only [Option.some_bind, hp, Nat.zero_add, if_true]
      have hcases : m = 85 ∨ m = 86 := by omega
      rcases hcases with rfl | rfl
      · have h1 : [a, b].take (85 - 84) = [a] := rfl
        rw [h1]
        simp only [feedAll, FeedMe, ParseNAV_PVTMessage]
        exact ⟨_, rfl, by simp [framingState]⟩
      · have h2 : [a, b].take (86 - 84) = [a, b] := rfl
        rw [h2, feed_checksum clk _ _ a b rfl]
        exact Exists.imp (fun s1 h => ⟨h.1, by simpa [framingState] using h.2⟩)
          (FeedMe_8_state _ _ b (by rfl))

theorem frame_shape_of_length (bs : List Nat) (hlen : bs.length = 88) :
    ∃ lo hi p a b, p.length = 84 ∧ bs = lo :: hi :: (p ++ [a, b]) := by
  match bs, hlen with
  | lo :: hi :: rest, hlen =>
    have hrest : rest.length = 86 := by simpa using hlen
    have hdrop : (rest.drop 84).length = 2 := by simp [hrest]
    obtain ⟨a, b, hab⟩ := List.length_eq_two.mp hdrop
    refine ⟨lo, hi, rest.take 84, a, b, by simp [hrest], ?_⟩
    rw [← hab, List.take_append_drop]

theorem FeedMe_le8 (t : Nat) (s s1 : State) (ch : Nat) (h : s.ParserState ≤ 8)
    (hs : FeedMe t s ch = some s1) : s1.ParserState ≤ 8 := by
  unfold FeedMe ParseNAV_PVTMessage at hs
  split at hs
  case h_7 heq =>
    cases hp : s.PayloadPtr with
    | none => simp [hp] at hs
    | some k =>
      simp only [hp] at hs
      split_ifs at hs <;> (cases hs; simp [heq])
  case h_10 =>
    cases hs
    exact h
  all_goals first
    | (cases hs; simp_all)
    | (split_ifs at hs <;> (cases hs; simp_all))

theorem reachable_inv (clk : Nat → Nat) (bs : List Nat) :
    ∀ (i : Nat) (s : State), s.ParserState ≤ 8 → Inv s →
      ∃ s1, feedAll clk i s bs = some s1 ∧ s1.ParserState ≤ 8 ∧ Inv s1 := by
  induction bs with
  | nil => intro i s h8 hinv; exact ⟨s, rfl, h8, hinv⟩
  | cons b bs ih =>
    intro i s h8 hinv
    obtain ⟨s1, hs1, hinv1⟩ := FeedMe_Inv (clk i) s b hinv
    obtain ⟨s2, hs2, h82, hinv2⟩ := ih (i + 1) s1 (FeedMe_le8 (clk i) s s1 b h8 hs1) hinv1
    exact ⟨s2, by simp only [feedAll, hs1, hs2], h82, hinv2⟩

theorem FeedMe_6_write (t : Nat) (s : State) (ch : Nat) (h6 : s.ParserState = 6)
    (hptr : s.PayloadPtr = some s.PayloadCount) (hc : s.PayloadCount < 84) :
    ∃ s1, FeedMe t s ch = some s1 ∧
      s1.WorkingPVT = { s.WorkingPVT with payload := s.WorkingPVT.payload.set s.PayloadCount ch } := by
  unfold FeedMe ParseNAV_PVTMessage
  simp only [h6, hptr, hc, if_true]
  split_ifs <;> exact ⟨_, rfl, rfl⟩

theorem feed_double_sync (clk : Nat → Nat) (i : Nat) (s : State) (tail : List Nat)
    (h0 : s.ParserState = 0) :
    feedAll clk i s (0xB5 :: 0xB5 :: tail) = feedAll clk (i + 2) s tail := by
  obtain ⟨PVT, FixNumber, MessageNumber, CRC_OK, W, ParserState, PayloadLength,
    LastValidPositionAge, PayloadCount, PayloadPtr, lengthbyte1, lengthbye2, CK_A, CK_B,
    PositionFixCallback, CallbackLog⟩ := s
  simp only at h0
  subst h0
  simp [feedAll, FeedMe, ParseNAV_PVTMessage, UBLOX_HEADER1, UBLOX_HEADER2]

theorem back_to_back (clk : Nat → Nat) (rest : List NAVPVTMsg) :
    ∀ (r : NAVPVTMsg) (i : Nat) (s : State), s.ParserState = 0 → s.WorkingPVT.Class = 1 →
      s.WorkingPVT.ID = 7 → s.WorkingPVT.payload.length = 84 → s.FixNumber < 2 ^ 32 →
      (∀ x ∈ r :: rest, x.WF ∧ x.Class = 1 ∧ x.ID = 7) →
      ∃ s1, feedAll clk i s ((r :: rest).map encode).flatten = some s1 ∧ s1.ParserState = 0 ∧
        s1.MessageNumber = (s.MessageNumber + (r :: rest).length) % 2 ^ 32 ∧
        s1.FixNumber = (s.FixNumber +
          ((r :: rest).filter (fun x => decide (x.fixType ≠ 0 ∧ x.fixType ≠ 5))).length)
            % 2 ^ 32 ∧
        s1.CRC_OK = true ∧ s1.PVT = (r :: rest).getLast (List.cons_ne_nil r rest) := by
  induction rest with
  | nil =>
    intro r i s h0 hc hi7 hw hF hrs
    obtain ⟨hr, hrc, hri⟩ := hrs r (List.mem_cons_self _ _)
    have hacc := accept_explicit clk i s r h0 hc hi7 hw hr hrc hri
    refine ⟨accepted (clk (i + 91)) s r, by simpa using hacc, rfl, rfl, ?_, rfl, rfl⟩
    by_cases hv : r.fixType ≠ 0 ∧ r.fixType ≠ 5
    · simp [accepted, hv, List.filter_cons]
    · simp only [accepted, if_neg hv, List.filter_cons, decide_eq_false hv]
      simp only [Bool.false_eq_true, if_false, List.filter_nil, List.length_nil, Nat.add_zero]
      exact (Nat.mod_eq_of_lt hF).symm
  | cons r2 rest ih =>
    intro r i s h0 hc hi7 hw hF hrs
    obtain ⟨hr, hrc, hri⟩ := hrs r (List.mem_cons_self _ _)
    have hacc := accept_explicit clk i s r h0 hc hi7 hw hr hrc hri
    obtain ⟨s1, hrun, hst, hm, hf, hcrc, hlast⟩ := ih r2 (i + (encode r).length)
      (accepted (clk (i + 91)) s r) rfl hrc hri hr.2.2.2.1
      (by
        simp only [accepted]
        split_ifs
        · exact Nat.mod_lt _ (by norm_num)
        · exact hF)
      (fun x hx => hrs x (List.mem_cons_of_mem _ hx))
    refine ⟨s1, ?_, hst, ?_, ?_, hcrc, ?_⟩
    · rw [List.map_cons, List.flatten_cons, feedAll_append, hacc]
      exact hrun
    · rw [hm]
      simp only [accepted, List.length_cons]
      omega
    · rw [hf]
      by_cases hv : r.fixType ≠ 0 ∧ r.fixType ≠ 5
      · rw [List.filter_cons_of_pos (l := r2 :: rest) (by simpa using hv)]
        simp only [accepted, if_pos hv, List.length_cons]
        omega
      · rw [List.filter_cons_of_neg (l := r2 :: rest) (by simpa using hv)]
        simp only [accepted, if_neg hv]
    · rw [hlast, List.getLast_cons (List.cons_ne_nil r2 rest)]

theorem weightedSum_cons (x : Nat) (xs : List Nat) :
    weightedSum (x :: xs) = (xs.length + 1) * x + weightedSum xs := by
  unfold weightedSum
  rw [List.length_cons, List.range_succ_eq_map, List.map_cons, List.sum_cons, List.map_map]
  congr 1
  apply congrArg
  apply List.map_congr_left
  intro i _
  simp only [Function.comp, List.getD_cons_succ]
  congr 1
  omega

theorem foldl_specChecksumStep_snd (bs : List Nat) :
    ∀ acc : Nat × Nat,
      (bs.foldl specChecksumStep acc).2
        ≡ acc.2 + bs.length * acc.1 + weightedSum bs [MOD 256] := by
  induction bs with
  | nil =>
    intro acc
    simp [weightedSum, Nat.ModEq]
  | cons x xs ih =>
    intro acc
    have ha : (acc.1 + x) % 256 ≡ acc.1 + x [MOD 256] := Nat.mod_modEq _ _
    have hb : (acc.2 + (acc.1 + x) % 256) % 256 ≡ acc.2 + (acc.1 + x) [MOD 256] :=
      (Nat.mod_modEq _ _).trans (Nat.ModEq.add_left _ ha)
    have hc := (hb.add (ha.mul_left xs.length)).add_right (weightedSum xs)
    have hd := (ih (specChecksumStep acc x)).trans hc
    rw [List.foldl_cons, weightedSum_cons, List.length_cons]
    have e : acc.2 + (acc.1 + x) + xs.length * (acc.1 + x) + weightedSum xs
        = acc.2 + (xs.length + 1) * acc.1 + ((xs.length + 1) * x + weightedSum xs) := by ring
    rw [← e]
    exact hd

theorem CalcChecksum_low (bs : List Nat) :
    CalcChecksum bs bs.length % 256 = weightedSum bs % 256 := by
  rw [CalcChecksum_eq_spec]
  have hb := specChecksumAcc_lt bs
  have h1 := foldl_specChecksumStep_snd bs (0, 0)
  simp only [Nat.mul_zero, Nat.add_zero, Nat.zero_add] at h1
  unfold Nat.ModEq at h1
  unfold specChecksum
  unfold specChecksumAcc at hb ⊢
  omega

theorem producible_invariant (s : State) (hs : Producible s) :
    s.WorkingPVT.Class = 1 ∧ s.WorkingPVT.ID = 7 ∧ s.WorkingPVT.payload.length = 84 ∧
      s.ParserState ≤ 8 ∧ Inv s := by
  induction hs with
  | built t pvt0 work0 hw => exact ⟨rfl, rfl, hw, by simp [ctor], by simp [Inv, ctor]⟩
  | fed t s s1 ch _ hstep ih =>
    obtain ⟨hc, hi7, hw, h8, hinv⟩ := ih
    obtain ⟨a1, a2, a3⟩ := FeedMe_expected_header t s s1 ch hstep
    obtain ⟨s2, hs2, hinv2⟩ := FeedMe_Inv t s ch hinv
    rw [hstep] at hs2
    cases hs2
    exact ⟨a1.trans hc, a2.trans hi7, a3.trans hw, FeedMe_le8 t s s1 ch h8 hstep, hinv2⟩
  | registered s fp _ ih => exact ih
  | pvtAssigned s v _ ih => exact ih
  | fixNumberAssigned s v _ ih => exact ih
  | messageNumberAssigned s v _ ih => exact ih
  | crcAssigned s v _ ih => exact ih

theorem round_trip_of_expected_header (clk : Nat → Nat) (i : Nat) (s : State) (r : NAVPVTMsg)
    (h0 : s.ParserState = 0) (hc : s.WorkingPVT.Class = 0x01) (hi7 : s.WorkingPVT.ID = 0x07)
    (hw : s.WorkingPVT.payload.length = 84) (hr : r.WF) (hrc : r.Class = 0x01)
    (hri : r.ID = 0x07) (_hrl : r.PayloadLength = 84) :
    (encode r).length = 92 ∧
      ∃ s1, feedAll clk i s (encode r) = some s1 ∧ s1.PVT = r ∧ s1.CRC_OK = true ∧
        s1.MessageNumber = (s.MessageNumber + 1) % 2 ^ 32 ∧ s1.ParserState = 0 := by
  refine ⟨by simp [encode, NAVPVTMsg.bytes, hr.2.2.2.1], _, accept clk i s r h0 hc hi7 hw hr hrc hri, ?_⟩
  have h := commit_store (clk (i + 91)) { armed s r with CK_B := CalcChecksum r.bytes 88 % 256 }
  have hW := armed_WorkingPVT s r hc hi7 hr hrc hri
  exact ⟨h.1.trans hW, h.2.1, h.2.2, rfl⟩

theorem callback_firing_of_expected_header (clk : Nat → Nat) (i : Nat) (s : State) (fp : Option Nat)
    (r : NAVPVTMsg) (h0 : s.ParserState = 0) (hc : s.WorkingPVT.Class = 0x01)
    (hi7 : s.WorkingPVT.ID = 0x07) (hw : s.WorkingPVT.payload.length = 84) (hr : r.WF)
    (hrc : r.Class = 0x01) (hri : r.ID = 0x07) :
    (encode r).length = 92 ∧
    ∃ s91 s92,
      feedAll clk i (SetPositionUpdateCallbackFunction s fp) ((encode r).take 91) = some s91 ∧
      feedAll clk i (SetPositionUpdateCallbackFunction s fp) (encode r) = some s92 ∧
      s91.CallbackLog = s.CallbackLog ∧
      ((fp ≠ none ∧ r.fixType ≠ 0 ∧ r.fixType ≠ 5) →
        s92.CallbackLog.length = s.CallbackLog.length + 1 ∧
        s92.CallbackLog = s.CallbackLog ++
          [{ PVT := s92.PVT
             CRC_OK := s92.CRC_OK
             MessageNumber := s92.MessageNumber
             FixNumber := s92.FixNumber
             LastValidPositionAge := s92.LastValidPositionAge
             ParserState := 8 }] ∧
        s92.PVT = r ∧ s92.CRC_OK = true ∧
        s92.MessageNumber = (s.MessageNumber + 1) % 2 ^ 32 ∧
        s92.FixNumber = (s.FixNumber + 1) % 2 ^ 32 ∧
        s92.LastValidPositionAge = millis (clk (i + 91))) ∧
      ((fp = none ∨ r.fixType = 0 ∨ r.fixType = 5) →
        s92.CallbackLog.length = s.CallbackLog.length ∧ s92.CallbackLog = s.CallbackLog) := by
  refine ⟨by simp [encode, NAVPVTMsg.bytes, hr.2.2.2.1], _, _,
    feed_all_but_last clk i _ r h0 hc hi7 hw hr hrc hri,
    accept_explicit clk i _ r h0 hc hi7 hw hr hrc hri, rfl, ?_, ?_⟩
  · rintro ⟨hfp, hf0, hf5⟩
    simp [accepted, SetPositionUpdateCallbackFunction, hfp, hf0, hf5]
  · intro h
    rcases h with h | h | h <;>
      simp [accepted, SetPositionUpdateCallbackFunction, h]

theorem transition_table_of_expected_header (t : Nat) (s : State) (ch : Nat)
    (hc : s.WorkingPVT.Class = 0x01) (hi7 : s.WorkingPVT.ID = 0x07) :
    (∀ s1, FeedMe t s ch = some s1 →
        (s.ParserState = 0 → s1.ParserState = if ch = 0xB5 then 1 else 0) ∧
        (s.ParserState = 1 → s1.ParserState = if ch = 0x62 then 2 else 0) ∧
        (s.ParserState = 2 → s1.ParserState = if ch = 0x01 then 3 else 0) ∧
        (s.ParserState = 3 → s1.ParserState = if ch = 0x07 then 4 else 0) ∧
        (s.ParserState = 4 → s1.ParserState = 5) ∧
        (s.ParserState = 5 → s1.ParserState = 6 ∧ s1.PayloadCount = 0) ∧
        (s.ParserState = 6 → s1.PayloadCount = s.PayloadCount + 1 ∧
          s1.ParserState = if s.PayloadCount + 1 = 84 then 7 else 6) ∧
        (s.ParserState = 7 → s1.ParserState = 8) ∧
        (s.ParserState = 8 → s1.ParserState = 0)) ∧
      ((s.ParserState = 6 → ∃ k, s.PayloadPtr = some k ∧ k < 84) →
        ∃ s1, FeedMe t s ch = some s1) := by
  constructor
  · intro s1 h
    unfold FeedMe ParseNAV_PVTMessage at h
    split at h
    case h_7 heq =>
      cases hp : s.PayloadPtr with
      | none => simp [hp] at h
      | some k =>
        simp only [hp, PVTPAYLOADLEN] at h
        split_ifs at h with h1 h2
        · cases h
          simp [heq, h2]
        · cases h
          simp [heq, h2]
    case h_10 h0 h1 h2 h3 h4 h5 h6 h7 h8 =>
      exact ⟨fun e => absurd e h0, fun e => absurd e h1, fun e => absurd e h2,
        fun e => absurd e h3, fun e => absurd e h4, fun e => absurd e h5,
        fun e => absurd e h6, fun e => absurd e h7, fun e => absurd e h8⟩
    all_goals first
      | (cases h; simp_all [UBLOX_HEADER1, UBLOX_HEADER2])
      | (split_ifs at h <;> (cases h; simp_all [UBLOX_HEADER1, UBLOX_HEADER2]))
  · intro hp
    unfold FeedMe ParseNAV_PVTMessage
    split
    case h_7 heq =>
      obtain ⟨k, hk, hlt⟩ := hp heq
      simp only [hk, hlt, if_true]
      split_ifs <;> exact ⟨_, rfl⟩
    all_goals first
      | exact ⟨_, rfl⟩
      | (split_ifs <;> exact ⟨_, rfl⟩)

/-! ## The claims -/

/-- C1: for every state a parser can be in with `ParserState` 0, whatever its
working record, committed record, flag and counters hold, and every record `r`
with `Class` 0x01, `ID` 0x07 and `PayloadLength` 84, feeding the 92 bytes of
`encode r` one at a time leaves `PVT = r`, `CRC_OK = true`, `MessageNumber` one
greater mod 2^32, and `ParserState = 0`. -/
theorem C1_round_trip (clk : Nat → Nat) (i : Nat) (s : State) (r : NAVPVTMsg)
    (hs : Producible s) (h0 : s.ParserState = 0) (hr : r.WF) (hrc : r.Class = 0x01)
    (hri : r.ID = 0x07) (hrl : r.PayloadLength = 84) :
    (encode r).length = 92 ∧
      ∃ s1, feedAll clk i s (encode r) = some s1 ∧ s1.PVT = r ∧ s1.CRC_OK = true ∧
        s1.MessageNumber = (s.MessageNumber + 1) % 2 ^ 32 ∧ s1.ParserState = 0 := by
  obtain ⟨hc, hi7, hw, _, _⟩ := producible_invariant s hs
  exact round_trip_of_expected_header clk i s r h0 hc hi7 hw hr hrc hri hrl

/-- C1, witness: a freshly constructed parser fed the frame of `sampleRecord`. -/
theorem C1_round_trip_witness :
    (encode sampleRecord).length = 92 ∧
      ∃ s1, feedAll (fun n => n) 0 sampleState (encode sampleRecord) = some s1 ∧
        s1.PVT = sampleRecord ∧ s1.CRC_OK = true ∧
        s1.MessageNumber = (sampleState.MessageNumber + 1) % 2 ^ 32 ∧ s1.ParserState = 0 :=
  C1_round_trip (fun n => n) 0 sampleState sampleRecord
    (Producible.built 1000 zeroMsg zeroMsg (by decide)) (by decide) (by decide) (by decide)
    (by decide) (by decide)

/-- C2: `CalcChecksum(bs, len)` over a byte sequence of length `len` is
`256 * A + B` for the two accumulators `(A, B)` the specification's fold
produces from `(0, 0)`; the checksum of the empty sequence is 0 and every
checksum is below 65536. -/
theorem C2_CalcChecksum_refines_spec (bs : List Nat) :
    CalcChecksum bs bs.length
        = 256 * (bs.foldl specChecksumStep (0, 0)).1 + (bs.foldl specChecksumStep (0, 0)).2
      ∧ CalcChecksum [] 0 = 0
      ∧ CalcChecksum bs bs.length < 65536 := by
  refine ⟨CalcChecksum_eq_spec bs, by decide, ?_⟩
  unfold CalcChecksum
  exact Nat.mod_lt _ (by norm_num)

/-- C3: for every parser state with `ParserState` 0, every valid frame
`encode r` and every bit of its 84 payload bytes and 2 checksum bytes (byte
index 6..91, bit 0..7), feeding the frame with that bit inverted leaves `PVT`
and `MessageNumber` as they were. -/
theorem C3_checksum_rejection (clk : Nat → Nat) (i : Nat) (s : State) (r : NAVPVTMsg)
    (pos bit : Nat) (h0 : s.ParserState = 0) (hw : s.WorkingPVT.payload.length = 84)
    (hr : r.WF) (hrc : r.Class = 0x01) (hri : r.ID = 0x07) (hpos : 6 ≤ pos ∧ pos < 92)
    (hbit : bit < 8) :
    ∃ s1, feedAll clk i s (flipBit (encode r) pos bit) = some s1 ∧ s1.PVT = s.PVT ∧
      s1.MessageNumber = s.MessageNumber := by
  obtain ⟨j, rfl⟩ : ∃ j, pos = j + 6 := ⟨pos - 6, by omega⟩
  have hj : j < 86 := by omega
  have hp : r.payload.length = 84 := hr.2.2.2.1
  have hlo : r.PayloadLength % 256 < 256 := Nat.mod_lt _ (by norm_num)
  have hhi : r.PayloadLength / 256 % 256 < 256 := Nat.mod_lt _ (by norm_num)
  have hbytes : r.bytes = [0x01, 0x07, r.PayloadLength % 256, r.PayloadLength / 256 % 256]
      ++ r.payload := by
    simp [NAVPVTMsg.bytes, hrc, hri]
  have hcons : 0x01 :: 0x07 :: (r.PayloadLength % 256) :: (r.PayloadLength / 256 % 256)
      :: r.payload = r.bytes := by
    simp [NAVPVTMsg.bytes, hrc, hri]
  have hck := checksum_bytes_roundtrip r.bytes 88
  have hcklt : CalcChecksum r.bytes 88 < 65536 := by
    unfold CalcChecksum
    exact Nat.mod_lt _ (by norm_num)
  rw [flipBit_encode r hrc hri]
  by_cases hj84 : j < 84
  · have hset : (r.payload ++ [CalcChecksum r.bytes 88 / 256, CalcChecksum r.bytes 88 % 256]).set j
          ((r.payload ++ [CalcChecksum r.bytes 88 / 256, CalcChecksum r.bytes 88 % 256]).getD j 0
            ^^^ 2 ^ bit)
        = r.payload.set j (r.payload.getD j 0 ^^^ 2 ^ bit)
          ++ [CalcChecksum r.bytes 88 / 256, CalcChecksum r.bytes 88 % 256] := by
      rw [List.set_append_left _ _ (by omega), List.getD_append _ _ _ _ (by omega)]
    rw [hset]
    have hx : r.payload.getD j 0 < 256 := by
      rw [List.getD_eq_getElem _ _ (by omega)]
      exact hr.2.2.2.2 _ (List.getElem_mem _)
    have hne := CalcChecksum_set_ne
      [0x01, 0x07, r.PayloadLength % 256, r.PayloadLength / 256 % 256] r.payload j
      (r.payload.getD j 0 ^^^ 2 ^ bit) (by omega) (xor_bit_lt _ _ hx hbit) hx (xor_bit_ne _ _)
    have hlen : ([0x01, 0x07, r.PayloadLength % 256, r.PayloadLength / 256 % 256]
        ++ r.payload).length = 88 := by simp [hp]
    rw [hlen, ← hbytes] at hne
    obtain ⟨s1, hs1, h1, h2, _⟩ := feed_bad_frame clk i s _ _
      (r.payload.set j (r.payload.getD j 0 ^^^ 2 ^ bit)) _ _ h0 hw (by simpa using hp) hlo hhi
      (by rw [hck]; exact hne)
    exact ⟨s1, hs1, h1, h2⟩
  · have hbit256 : ∀ x, x < 256 → x ^^^ 2 ^ bit < 256 ∧ x ^^^ 2 ^ bit ≠ x :=
      fun x hx => ⟨xor_bit_lt x bit hx hbit, xor_bit_ne x bit⟩
    obtain ⟨ha1, ha2⟩ := hbit256 (CalcChecksum r.bytes 88 / 256) (by omega)
    obtain ⟨hb1, hb2⟩ := hbit256 (CalcChecksum r.bytes 88 % 256) (by omega)
    have hcases : j = 84 ∨ j = 85 := by omega
    rcases hcases with rfl | rfl
    · have hset : (r.payload ++ [CalcChecksum r.bytes 88 / 256, CalcChecksum r.bytes 88 % 256]).set 84
          ((r.payload ++ [CalcChecksum r.bytes 88 / 256, CalcChecksum r.bytes 88 % 256]).getD 84 0
            ^^^ 2 ^ bit)
          = r.payload ++ [CalcChecksum r.bytes 88 / 256 ^^^ 2 ^ bit,
              CalcChecksum r.bytes 88 % 256] := by
        rw [List.set_append_right _ _ (by omega), List.getD_append_right _ _ _ _ (by omega)]
        simp [hp]
      rw [hset]
      obtain ⟨s1, hs1, h1, h2, _⟩ := feed_bad_frame clk i s _ _ r.payload
        (CalcChecksum r.bytes 88 / 256 ^^^ 2 ^ bit) (CalcChecksum r.bytes 88 % 256) h0 hw hp
        hlo hhi (by
          rw [hcons]
          simp only [Nat.shiftLeft_eq]
          omega)
      exact ⟨s1, hs1, h1, h2⟩
    · have hset : (r.payload ++ [CalcChecksum r.bytes 88 / 256, CalcChecksum r.bytes 88 % 256]).set 85
          ((r.payload ++ [CalcChecksum r.bytes 88 / 256, CalcChecksum r.bytes 88 % 256]).getD 85 0
            ^^^ 2 ^ bit)
          = r.payload ++ [CalcChecksum r.bytes 88 / 256,
              CalcChecksum r.bytes 88 % 256 ^^^ 2 ^ bit] := by
        rw [List.set_append_right _ _ (by omega), List.getD_append_right _ _ _ _ (by omega)]
        simp [hp]
      rw [hset]
      obtain ⟨s1, hs1, h1, h2, _⟩ := feed_bad_frame clk i s _ _ r.payload
        (CalcChecksum r.bytes 88 / 256) (CalcChecksum r.bytes 88 % 256 ^^^ 2 ^ bit) h0 hw hp
        hlo hhi (by
          rw [hcons]
          simp only [Nat.shiftLeft_eq]
          omega)
      exact ⟨s1, hs1, h1, h2⟩

/-- C3, witness: bit 4 of payload byte 20 (frame index 26) inverted in the
frame of `sampleRecord`. -/
theorem C3_checksum_rejection_witness :
    ∃ s1, feedAll (fun n => n) 0 sampleState (flipBit (encode sampleRecord) 26 4) = some s1 ∧
      s1.PVT = sampleState.PVT ∧ s1.MessageNumber = sampleState.MessageNumber :=
  C3_checksum_rejection (fun n => n) 0 sampleState sampleRecord 26 4 (by decide) (by decide)
    (by decide) (by decide) (by decide) (by decide) (by decide)

/-- C4: in state 8, when `CalcChecksum` over the 88 bytes of `WorkingPVT` differs
from `256 * CK_A + ch`, `FeedMe(ch)` sets `CRC_OK` to false, leaves `PVT`,
`MessageNumber`, `FixNumber` and `LastValidPositionAge` unchanged, invokes no
callback, and sets `ParserState` to 0. -/
theorem C4_mismatch_atomic (t : Nat) (s : State) (ch : Nat) (h8 : s.ParserState = 8)
    (hA : s.CK_A < 256) (hch : ch < 256)
    (hck : CalcChecksum s.WorkingPVT.bytes NAVPVTMsg.sizeof ≠ 256 * s.CK_A + ch) :
    ∃ s1, FeedMe t s ch = some s1 ∧ s1.CRC_OK = false ∧ s1.PVT = s.PVT ∧
      s1.MessageNumber = s.MessageNumber ∧ s1.FixNumber = s.FixNumber ∧
      s1.LastValidPositionAge = s.LastValidPositionAge ∧
      s1.CallbackLog = s.CallbackLog ∧ s1.ParserState = 0 := by
  refine ⟨_, FeedMe_8_mismatch t s ch h8 ?_, rfl, rfl, rfl, rfl, rfl, rfl, rfl⟩
  have e : ((s.CK_A <<< 8) + ch) % 65536 = 256 * s.CK_A + ch := by
    simp only [Nat.shiftLeft_eq]
    omega
  rw [e]
  exact hck

/-- C4, witness: state 8 with a first checksum byte 0xFF that is not the
working record's, fed the byte 0. -/
theorem C4_mismatch_atomic_witness :
    ∃ s1, FeedMe 5 verifiedState8 0 = some s1 ∧ s1.CRC_OK = false ∧
      s1.PVT = verifiedState8.PVT ∧ s1.MessageNumber = verifiedState8.MessageNumber ∧
      s1.FixNumber = verifiedState8.FixNumber ∧
      s1.LastValidPositionAge = verifiedState8.LastValidPositionAge ∧
      s1.CallbackLog = verifiedState8.CallbackLog ∧ s1.ParserState = 0 :=
  C4_mismatch_atomic 5 verifiedState8 0 (by decide) (by decide) (by decide) (by decide)

/-- C5: `IsValidFixPosition()` is true exactly when `CRC_OK` is true and
`PVT.fixType` is neither 0 nor 5; it takes the same value in any two states
that agree on `CRC_OK` and `PVT.fixType`; and with `CRC_OK` true it is true for
exactly 254 of the 256 values of the `fixType` byte. -/
theorem C5_fix_classification (s : State) (hlen : s.PVT.payload.length = 84) :
    (IsValidFixPosition s = true ↔
        (s.CRC_OK = true ∧ s.PVT.fixType ≠ 0 ∧ s.PVT.fixType ≠ 5)) ∧
      (∀ s2 : State, s2.CRC_OK = s.CRC_OK → s2.PVT.fixType = s.PVT.fixType →
        IsValidFixPosition s2 = IsValidFixPosition s) ∧
      (∀ f : Nat, f < 256 → f ≠ 0 → f ≠ 5 →
        IsValidFixPosition { s with
          CRC_OK := true, PVT := { s.PVT with payload := s.PVT.payload.set 20 f } } = true) ∧
      ((List.range 256).filter (fun f =>
        IsValidFixPosition { s with
          CRC_OK := true
          PVT := { s.PVT with payload := s.PVT.payload.set 20 f } })).length = 254 := by
  have hset : ∀ f : Nat, (s.PVT.payload.set 20 f).getD 20 0 = f := by
    intro f
    rw [List.getD_eq_getElem?_getD, List.getElem?_set_self (by omega)]
    rfl
  have hval : ∀ f : Nat, IsValidFixPosition { s with
      CRC_OK := true, PVT := { s.PVT with payload := s.PVT.payload.set 20 f } }
        = (!decide (f = 0) && !decide (f = 5)) := by
    intro f
    simp only [IsValidFixPosition, NAVPVTMsg.fixType, hset, FIXTYPE_NOFIX, FIXTYPE_TIMEONLY]
    simp
  refine ⟨?_, ?_, ?_, ?_⟩
  · simp [IsValidFixPosition, FIXTYPE_NOFIX, FIXTYPE_TIMEONLY, and_assoc]
  · intro s2 h1 h2
    simp [IsValidFixPosition, h1, h2]
  · intro f _ h0 h5
    rw [hval]
    simp [h0, h5]
  · simp only [hval]
    decide

/-- C5, witness: the classification of a freshly constructed parser. -/
theorem C5_fix_classification_witness :
    (IsValidFixPosition sampleState = true ↔
        (sampleState.CRC_OK = true ∧ sampleState.PVT.fixType ≠ 0 ∧
          sampleState.PVT.fixType ≠ 5)) ∧
      (∀ s2 : State, s2.CRC_OK = sampleState.CRC_OK →
        s2.PVT.fixType = sampleState.PVT.fixType →
        IsValidFixPosition s2 = IsValidFixPosition sampleState) ∧
      (∀ f : Nat, f < 256 → f ≠ 0 → f ≠ 5 →
        IsValidFixPosition { sampleState with
          CRC_OK := true
          PVT := { sampleState.PVT with payload := sampleState.PVT.payload.set 20 f } } = true) ∧
      ((List.range 256).filter (fun f =>
        IsValidFixPosition { sampleState with
          CRC_OK := true
          PVT := { sampleState.PVT with
            payload := sampleState.PVT.payload.set 20 f } })).length = 254 :=
  C5_fix_classification sampleState (by decide)

/-- C6: a freshly constructed parser fed `B5 62 01 07 54 00`, 84 payload bytes
`p` and the two correct checksum bytes has `MessageNumber = 1` and
`PVT.fixType` equal to payload byte 20; when that byte is neither 0 nor 5,
`FixNumber = 1`, `IsValidFixPosition()` is true and `LastValidPositionAge` is the
clock read at the last byte; when it is 0 or 5, `FixNumber = 0`,
`IsValidFixPosition()` is false and `LastValidPositionAge` is the clock read by
the constructor. -/
theorem C6_commit_bookkeeping (clk : Nat → Nat) (t0 : Nat) (pvt0 work0 : NAVPVTMsg)
    (p : List Nat) (hw : work0.payload.length = 84) (hp : p.length = 84)
    (hb : ∀ b ∈ p, b < 256) :
    ∃ s1,
      feedAll clk 0 (ctor t0 pvt0 work0)
          (0xB5 :: 0x62 :: 0x01 :: 0x07 :: 0x54 :: 0x00 :: (p ++
            [CalcChecksum (0x01 :: 0x07 :: 0x54 :: 0x00 :: p) 88 / 256,
              CalcChecksum (0x01 :: 0x07 :: 0x54 :: 0x00 :: p) 88 % 256])) = some s1 ∧
        s1.MessageNumber = 1 ∧ s1.PVT.fixType = p.getD 20 0 ∧
        ((p.getD 20 0 ≠ 0 ∧ p.getD 20 0 ≠ 5) →
          s1.FixNumber = 1 ∧ IsValidFixPosition s1 = true ∧
            s1.LastValidPositionAge = millis (clk 91)) ∧
        ((p.getD 20 0 = 0 ∨ p.getD 20 0 = 5) →
          s1.FixNumber = 0 ∧ IsValidFixPosition s1 = false ∧
            s1.LastValidPositionAge = millis t0) := by
  have hr : NAVPVTMsg.WF ⟨0x01, 0x07, 84, p⟩ := ⟨by norm_num, by norm_num, by norm_num, hp, hb⟩
  have henc : encode ⟨0x01, 0x07, 84, p⟩
      = 0xB5 :: 0x62 :: 0x01 :: 0x07 :: 0x54 :: 0x00 :: (p ++
          [CalcChecksum (0x01 :: 0x07 :: 0x54 :: 0x00 :: p) 88 / 256,
            CalcChecksum (0x01 :: 0x07 :: 0x54 :: 0x00 :: p) 88 % 256]) := by
    simp [encode, NAVPVTMsg.bytes, UBLOX_HEADER1, UBLOX_HEADER2, NAVPVTMsg.sizeof]
  have hacc := accept_explicit clk 0 (ctor t0 pvt0 work0) ⟨0x01, 0x07, 84, p⟩ rfl rfl rfl hw hr
    rfl rfl
  rw [henc] at hacc
  refine ⟨_, hacc, rfl, rfl, ?_, ?_⟩
  · intro hf
    rw [List.getD_eq_getElem?_getD] at hf
    simp [accepted, IsValidFixPosition, NAVPVTMsg.fixType, FIXTYPE_NOFIX, FIXTYPE_TIMEONLY,
      ctor, hf.1, hf.2]
  · intro hf
    rw [List.getD_eq_getElem?_getD] at hf
    rcases hf with hf | hf <;>
      simp [accepted, IsValidFixPosition, NAVPVTMsg.fixType, FIXTYPE_NOFIX, FIXTYPE_TIMEONLY,
        ctor, hf]

/-- C6, witness: the scenario of the specification, a payload with `fixType` 3. -/
theorem C6_commit_bookkeeping_witness :
    ∃ s1,
      feedAll (fun n => 2000 + n) 0 (ctor 1000 zeroMsg zeroMsg)
          (0xB5 :: 0x62 :: 0x01 :: 0x07 :: 0x54 :: 0x00 :: (sampleRecord.payload ++
            [CalcChecksum (0x01 :: 0x07 :: 0x54 :: 0x00 :: sampleRecord.payload) 88 / 256,
              CalcChecksum (0x01 :: 0x07 :: 0x54 :: 0x00 :: sampleRecord.payload) 88 % 256]))
          = some s1 ∧
        s1.MessageNumber = 1 ∧ s1.PVT.fixType = sampleRecord.payload.getD 20 0 ∧
        ((sampleRecord.payload.getD 20 0 ≠ 0 ∧ sampleRecord.payload.getD 20 0 ≠ 5) →
          s1.FixNumber = 1 ∧ IsValidFixPosition s1 = true ∧
            s1.LastValidPositionAge = millis ((fun n => 2000 + n) 91)) ∧
        ((sampleRecord.payload.getD 20 0 = 0 ∨ sampleRecord.payload.getD 20 0 = 5) →
          s1.FixNumber = 0 ∧ IsValidFixPosition s1 = false ∧
            s1.LastValidPositionAge = millis 1000) :=
  C6_commit_bookkeeping (fun n => 2000 + n) 1000 zeroMsg zeroMsg sampleRecord.payload
    (by decide) (by decide) (by decide)

/-- C7: for every state a parser can be in with `ParserState` 0, with the
handler `fp` registered, and every valid frame `encode r`: no callback is
invoked during the first 91 bytes; over the whole frame exactly one callback
is invoked when `fp` is not `NULL` and the frame's `fixType` is neither 0 nor 5,
and it observes the updated `PVT`, `CRC_OK`, `MessageNumber`,
`LastValidPositionAge` and `FixNumber`; no callback is invoked when `fp` is
`NULL` or `fixType` is 0 or 5. -/
theorem C7_callback_firing (clk : Nat → Nat) (i : Nat) (s : State) (fp : Option Nat)
    (r : NAVPVTMsg) (hs : Producible s) (h0 : s.ParserState = 0) (hr : r.WF)
    (hrc : r.Class = 0x01) (hri : r.ID = 0x07) :
    (encode r).length = 92 ∧
    ∃ s91 s92,
      feedAll clk i (SetPositionUpdateCallbackFunction s fp) ((encode r).take 91) = some s91 ∧
      feedAll clk i (SetPositionUpdateCallbackFunction s fp) (encode r) = some s92 ∧
      s91.CallbackLog = s.CallbackLog ∧
      ((fp ≠ none ∧ r.fixType ≠ 0 ∧ r.fixType ≠ 5) →
        s92.CallbackLog.length = s.CallbackLog.length + 1 ∧
        s92.CallbackLog = s.CallbackLog ++
          [{ PVT := s92.PVT
             CRC_OK := s92.CRC_OK
             MessageNumber := s92.MessageNumber
             FixNumber := s92.FixNumber
             LastValidPositionAge := s92.LastValidPositionAge
             ParserState := 8 }] ∧
        s92.PVT = r ∧ s92.CRC_OK = true ∧
        s92.MessageNumber = (s.MessageNumber + 1) % 2 ^ 32 ∧
        s92.FixNumber = (s.FixNumber + 1) % 2 ^ 32 ∧
        s92.LastValidPositionAge = millis (clk (i + 91))) ∧
      ((fp = none ∨ r.fixType = 0 ∨ r.fixType = 5) →
        s92.CallbackLog.length = s.CallbackLog.length ∧ s92.CallbackLog = s.CallbackLog) := by
  obtain ⟨hc, hi7, hw, _, _⟩ := producible_invariant s hs
  exact callback_firing_of_expected_header clk i s fp r h0 hc hi7 hw hr hrc hri

/-- C7, witness: a handler registered on a freshly constructed parser, then
the frame of `sampleRecord` (`fixType` 3). -/
theorem C7_callback_firing_witness :
    (encode sampleRecord).length = 92 ∧
    ∃ s91 s92,
      feedAll (fun n => n) 0 (SetPositionUpdateCallbackFunction sampleState (some 1))
        ((encode sampleRecord).take 91) = some s91 ∧
      feedAll (fun n => n) 0 (SetPositionUpdateCallbackFunction sampleState (some 1))
        (encode sampleRecord) = some s92 ∧
      s91.CallbackLog = sampleState.CallbackLog ∧
      (((some 1 : Option Nat) ≠ none ∧ sampleRecord.fixType ≠ 0 ∧ sampleRecord.fixType ≠ 5) →
        s92.CallbackLog.length = sampleState.CallbackLog.length + 1 ∧
        s92.CallbackLog = sampleState.CallbackLog ++
          [{ PVT := s92.PVT
             CRC_OK := s92.CRC_OK
             MessageNumber := s92.MessageNumber
             FixNumber := s92.FixNumber
             LastValidPositionAge := s92.LastValidPositionAge
             ParserState := 8 }] ∧
        s92.PVT = sampleRecord ∧ s92.CRC_OK = true ∧
        s92.MessageNumber = (sampleState.MessageNumber + 1) % 2 ^ 32 ∧
        s92.FixNumber = (sampleState.FixNumber + 1) % 2 ^ 32 ∧
        s92.LastValidPositionAge = millis ((fun n => n) (0 + 91))) ∧
      (((some 1 : Option Nat) = none ∨ sampleRecord.fixType = 0 ∨ sampleRecord.fixType = 5) →
        s92.CallbackLog.length = sampleState.CallbackLog.length ∧
          s92.CallbackLog = sampleState.CallbackLog) :=
  C7_callback_firing (fun n => n) 0 sampleState (some 1) sampleRecord
    (Producible.built 1000 zeroMsg zeroMsg (by decide)) (by decide) (by decide) (by decide)
    (by decide)

/-- C8 (amended): for every parser state with `ParserState` 0 whose working
record holds `Class` 0x01 and `ID` 0x07, every noise sequence without a byte
0xB5 and every valid frame `encode r`: the state is unchanged after every
initial part of the noise, and after the noise followed by the frame `PVT` is
`r`, `CRC_OK` is true and `MessageNumber` is one greater mod 2^32. -/
theorem C8_resynchronization (clk : Nat → Nat) (i : Nat) (s : State) (noise : List Nat)
    (r : NAVPVTMsg) (h0 : s.ParserState = 0) (hc : s.WorkingPVT.Class = 0x01)
    (hi7 : s.WorkingPVT.ID = 0x07) (hw : s.WorkingPVT.payload.length = 84)
    (hn : ∀ b ∈ noise, b ≠ 0xB5) (hr : r.WF) (hrc : r.Class = 0x01) (hri : r.ID = 0x07) :
    (∀ n, feedAll clk i s (noise.take n) = some s) ∧
      ∃ s1, feedAll clk i s (noise ++ encode r) = some s1 ∧ s1.PVT = r ∧ s1.CRC_OK = true ∧
        s1.MessageNumber = (s.MessageNumber + 1) % 2 ^ 32 := by
  constructor
  · intro n
    exact feed_noise clk _ i s h0 (fun b hb => hn b (List.mem_of_mem_take hb))
  · refine ⟨accepted (clk (i + noise.length + 91)) s r, ?_, rfl, rfl, rfl⟩
    rw [feedAll_append, feed_noise clk noise i s h0 hn]
    exact accept_explicit clk (i + noise.length) s r h0 hc hi7 hw hr hrc hri

/-- C8, witness: three noise bytes, then the frame of `sampleRecord`. -/
theorem C8_resynchronization_witness :
    (∀ n, feedAll (fun n => n) 0 sampleState ([0x00, 0x62, 0xFF].take n) = some sampleState) ∧
      ∃ s1, feedAll (fun n => n) 0 sampleState ([0x00, 0x62, 0xFF] ++ encode sampleRecord)
          = some s1 ∧
        s1.PVT = sampleRecord ∧ s1.CRC_OK = true ∧
        s1.MessageNumber = (sampleState.MessageNumber + 1) % 2 ^ 32 :=
  C8_resynchronization (fun n => n) 0 sampleState [0x00, 0x62, 0xFF] sampleRecord (by decide)
    (by decide) (by decide) (by decide) (by decide) (by decide) (by decide) (by decide)

/-- C8, counterexample: `fullCounterState` is a constructed parser whose public
`MessageNumber` was assigned 2^32 - 1; noise followed by a valid frame is
committed and leaves `MessageNumber = 0`, which is not one greater. -/
theorem C8_counterexample :
    Producible fullCounterState ∧ fullCounterState.ParserState = 0 ∧
      fullCounterState.MessageNumber = 4294967295 ∧
      sampleRecord.WF ∧ sampleRecord.Class = 0x01 ∧ sampleRecord.ID = 0x07 ∧
      (∀ b ∈ [0x00, 0xFF], b ≠ 0xB5) ∧
      (feedAll (fun n => n) 0 fullCounterState ([0x00, 0xFF] ++ encode sampleRecord)).map
        (fun s1 => s1.MessageNumber) = some 0 :=
  ⟨Producible.messageNumberAssigned sampleState (2 ^ 32 - 1)
      (Producible.built 1000 zeroMsg zeroMsg (by decide)),
    by decide⟩

/-- C9: in every state with `ParserState` in 0..7, a `FeedMe(ch)` leaves `PVT`,
`CRC_OK`, `MessageNumber`, `FixNumber` and `LastValidPositionAge` unchanged and
invokes no callback; the call is defined whenever `PayloadPtr` points into the
payload of `WorkingPVT` in state 6. -/
theorem C9_store_untouched_before_last_byte (t : Nat) (s : State) (ch : Nat)
    (h : s.ParserState ≤ 7) :
    (∀ s1, FeedMe t s ch = some s1 →
        s1.PVT = s.PVT ∧ s1.CRC_OK = s.CRC_OK ∧ s1.MessageNumber = s.MessageNumber ∧
          s1.FixNumber = s.FixNumber ∧ s1.LastValidPositionAge = s.LastValidPositionAge ∧
          s1.CallbackLog = s.CallbackLog) ∧
      ((s.ParserState = 6 → ∃ k, s.PayloadPtr = some k ∧ k < 84) →
        ∃ s1, FeedMe t s ch = some s1) := by
  constructor
  · intro s1 hs
    exact FeedMe_sameStore t s s1 ch (by omega) hs
  · intro hp
    unfold FeedMe ParseNAV_PVTMessage
    split
    case h_7 heq =>
      obtain ⟨k, hk, hlt⟩ := hp heq
      simp only [hk, hlt, if_true]
      split_ifs <;> exact ⟨_, rfl⟩
    all_goals first
      | exact ⟨_, rfl⟩
      | (split_ifs <;> exact ⟨_, rfl⟩)

/-- C9, witness: a freshly constructed parser (state 0) fed the byte 0xB5. -/
theorem C9_store_untouched_before_last_byte_witness :
    (∀ s1, FeedMe 5 sampleState 0xB5 = some s1 →
        s1.PVT = sampleState.PVT ∧ s1.CRC_OK = sampleState.CRC_OK ∧
          s1.MessageNumber = sampleState.MessageNumber ∧
          s1.FixNumber = sampleState.FixNumber ∧
          s1.LastValidPositionAge = sampleState.LastValidPositionAge ∧
          s1.CallbackLog = sampleState.CallbackLog) ∧
      ((sampleState.ParserState = 6 → ∃ k, sampleState.PayloadPtr = some k ∧ k < 84) →
        ∃ s1, FeedMe 5 sampleState 0xB5 = some s1) :=
  C9_store_untouched_before_last_byte 5 sampleState 0xB5 (by decide)

/-- C10 (amended): when `FeedMe(ch)` takes the checksum-mismatch branch of
state 8 or a mismatch branch of state 1, 2 or 3, `PVT`, `MessageNumber`,
`FixNumber` and `LastValidPositionAge` are equal before and after the call and
`ParserState` becomes 0; `CRC_OK` is unchanged on the header branches and is
false after the checksum-mismatch branch. -/
theorem C10_mismatch_resets (t : Nat) (s : State) (ch : Nat)
    (hbranch :
      (s.ParserState = 8 ∧
        CalcChecksum s.WorkingPVT.bytes NAVPVTMsg.sizeof ≠ ((s.CK_A <<< 8) + ch) % 65536) ∨
      (s.ParserState = 1 ∧ ch ≠ UBLOX_HEADER2) ∨
      (s.ParserState = 2 ∧ ch ≠ s.WorkingPVT.Class) ∨
      (s.ParserState = 3 ∧ ch ≠ s.WorkingPVT.ID)) :
    ∃ s1, FeedMe t s ch = some s1 ∧ s1.PVT = s.PVT ∧ s1.MessageNumber = s.MessageNumber ∧
      s1.FixNumber = s.FixNumber ∧ s1.LastValidPositionAge = s.LastValidPositionAge ∧
      s1.ParserState = 0 ∧
      s1.CRC_OK = (if s.ParserState = 8 then false else s.CRC_OK) := by
  rcases hbranch with ⟨h8, hck⟩ | ⟨h1, hne⟩ | ⟨h2, hne⟩ | ⟨h3, hne⟩
  · exact ⟨_, FeedMe_8_mismatch t s ch h8 hck, rfl, rfl, rfl, rfl, rfl, by simp [h8]⟩
  · refine ⟨{ s with ParserState := 0 }, ?_, rfl, rfl, rfl, rfl, rfl, by simp [h1]⟩
    simp [FeedMe, ParseNAV_PVTMessage, h1, hne]
  · refine ⟨{ s with ParserState := 0 }, ?_, rfl, rfl, rfl, rfl, rfl, by simp [h2]⟩
    simp [FeedMe, ParseNAV_PVTMessage, h2, hne]
  · refine ⟨{ s with ParserState := 0 }, ?_, rfl, rfl, rfl, rfl, rfl, by simp [h3]⟩
    simp [FeedMe, ParseNAV_PVTMessage, h3, hne]

/-- C10, witness: the checksum-mismatch branch taken from `verifiedState8`. -/
theorem C10_mismatch_resets_witness :
    ∃ s1, FeedMe 5 verifiedState8 0 = some s1 ∧ s1.PVT = verifiedState8.PVT ∧
      s1.MessageNumber = verifiedState8.MessageNumber ∧
      s1.FixNumber = verifiedState8.FixNumber ∧
      s1.LastValidPositionAge = verifiedState8.LastValidPositionAge ∧
      s1.ParserState = 0 ∧
      s1.CRC_OK = (if verifiedState8.ParserState = 8 then false else verifiedState8.CRC_OK) :=
  C10_mismatch_resets 5 verifiedState8 0 (Or.inl (by decide))

/-- C10, counterexample: `verifiedState8` has `CRC_OK = true`; feeding it the
byte 0 takes the checksum-mismatch branch and leaves `CRC_OK = false`, so the
five fields are not all equal before and after the call. -/
theorem C10_counterexample :
    verifiedState8.ParserState = 8 ∧
      CalcChecksum verifiedState8.WorkingPVT.bytes NAVPVTMsg.sizeof
        ≠ ((verifiedState8.CK_A <<< 8) + 0) % 65536 ∧
      verifiedState8.CRC_OK = true ∧
      (FeedMe 5 verifiedState8 0).map (fun s1 => s1.CRC_OK) = some false ∧
      ¬ ∃ s1, FeedMe 5 verifiedState8 0 = some s1 ∧ s1.PVT = verifiedState8.PVT ∧
        s1.CRC_OK = verifiedState8.CRC_OK ∧ s1.MessageNumber = verifiedState8.MessageNumber ∧
        s1.FixNumber = verifiedState8.FixNumber ∧
        s1.LastValidPositionAge = verifiedState8.LastValidPositionAge ∧
        s1.ParserState = 0 := by
  refine ⟨by decide, by decide, by decide, by decide, ?_⟩
  rintro ⟨s1, hs, _, hcrc, _⟩
  have h : (FeedMe 5 verifiedState8 0).map (fun s1 => s1.CRC_OK) = some false := by decide
  rw [hs] at h
  simp only [Option.map_some', Option.some.injEq] at h
  rw [h] at hcrc
  revert hcrc
  decide

/-- C11: when a `FeedMe` call that reads the clock value `T0` commits a valid
fix, then as long as no later call commits a valid fix, `PositionFixAge()` read
at clock value `T0` is 0, and for clock values `T0 <= T1 < T2` the age read at
`T2` is at least the age read at `T1`. -/
theorem C11_fix_age_monotone (clk : Nat → Nat) (i : Nat) (s8 : State) (ch : Nat)
    (T0 T1 T2 : Nat) (hfix : commitsFix s8 ch = true) (h01 : T0 ≤ T1) (h12 : T1 < T2)
    (h2 : T2 < 2 ^ 32) :
    ∃ s1, FeedMe T0 s8 ch = some s1 ∧ PositionFixAge T0 s1 = 0 ∧
      ∀ (bs : List Nat) (s2 : State), noFixCommitted clk i s1 bs = true →
        feedAll clk i s1 bs = some s2 →
        PositionFixAge T0 s2 = 0 ∧ PositionFixAge T1 s2 ≤ PositionFixAge T2 s2 := by
  obtain ⟨s1, hs1, hstamp⟩ := FeedMe_commitsFix T0 s8 ch hfix
  have hm0 : millis T0 = T0 := Nat.mod_eq_of_lt (by omega)
  have hm1 : millis T1 = T1 := Nat.mod_eq_of_lt (by omega)
  have hm2 : millis T2 = T2 := Nat.mod_eq_of_lt (by omega)
  have key : ∀ s2 : State, s2.LastValidPositionAge = T0 →
      PositionFixAge T0 s2 = 0 ∧ PositionFixAge T1 s2 ≤ PositionFixAge T2 s2 := by
    intro s2 h
    simp only [PositionFixAge, hm0, hm1, hm2, h]
    omega
  refine ⟨s1, hs1, (key s1 (hstamp.trans hm0)).1, ?_⟩
  intro bs s2 hq hrun
  exact key s2 ((noFixCommitted_stamp clk bs i s1 s2 hq hrun).trans (hstamp.trans hm0))

/-- C11, witness: the last byte of the frame of `sampleRecord` (`fixType` 3) read
at clock value 5000, ages read at 6000 and 7000. -/
theorem C11_fix_age_monotone_witness :
    ∃ s1, FeedMe 5000 sampleState8 sampleLastByte = some s1 ∧ PositionFixAge 5000 s1 = 0 ∧
      ∀ (bs : List Nat) (s2 : State), noFixCommitted (fun n => n) 0 s1 bs = true →
        feedAll (fun n => n) 0 s1 bs = some s2 →
        PositionFixAge 5000 s2 = 0 ∧ PositionFixAge 6000 s2 ≤ PositionFixAge 7000 s2 :=
  C11_fix_age_monotone (fun n => n) 0 sampleState8 sampleLastByte 5000 6000 7000 (by decide)
    (by decide) (by decide) (by decide)

/-- C12: for every state a parser can be in and every byte `ch`, `FeedMe(ch)`
returns and the `ParserState` after it follows the transition table: 0 goes to
1 on 0xB5 and else stays; 1 goes to 2 on 0x62 and else to 0; 2 goes to 3 on
0x01 and else to 0; 3 goes to 4 on 0x07 and else to 0; 4, 5 and 7 go to 5, 6
and 8, state 5 resetting `PayloadCount` to 0; 6 goes to 7 exactly when the
incremented `PayloadCount` is 84 and else stays; 8 goes to 0. -/
theorem C12_transition_table (t : Nat) (s : State) (ch : Nat) (hs : Producible s) :
    ∃ s1, FeedMe t s ch = some s1 ∧
      (s.ParserState = 0 → s1.ParserState = if ch = 0xB5 then 1 else 0) ∧
      (s.ParserState = 1 → s1.ParserState = if ch = 0x62 then 2 else 0) ∧
      (s.ParserState = 2 → s1.ParserState = if ch = 0x01 then 3 else 0) ∧
      (s.ParserState = 3 → s1.ParserState = if ch = 0x07 then 4 else 0) ∧
      (s.ParserState = 4 → s1.ParserState = 5) ∧
      (s.ParserState = 5 → s1.ParserState = 6 ∧ s1.PayloadCount = 0) ∧
      (s.ParserState = 6 → s1.PayloadCount = s.PayloadCount + 1 ∧
        s1.ParserState = if s.PayloadCount + 1 = 84 then 7 else 6) ∧
      (s.ParserState = 7 → s1.ParserState = 8) ∧
      (s.ParserState = 8 → s1.ParserState = 0) := by
  obtain ⟨hc, hi7, _, _, hinv⟩ := producible_invariant s hs
  have h := transition_table_of_expected_header t s ch hc hi7
  obtain ⟨s1, hs1⟩ := h.2 (fun h6 => ⟨s.PayloadCount, (hinv h6).1, (hinv h6).2⟩)
  exact ⟨s1, hs1, h.1 s1 hs1⟩

/-- C12, witness: a freshly constructed parser fed the byte 0xB5. -/
theorem C12_transition_table_witness :
    ∃ s1, FeedMe 5 sampleState 0xB5 = some s1 ∧
      (sampleState.ParserState = 0 → s1.ParserState = if 0xB5 = 0xB5 then 1 else 0) ∧
      (sampleState.ParserState = 1 → s1.ParserState = if 0xB5 = 0x62 then 2 else 0) ∧
      (sampleState.ParserState = 2 → s1.ParserState = if 0xB5 = 0x01 then 3 else 0) ∧
      (sampleState.ParserState = 3 → s1.ParserState = if 0xB5 = 0x07 then 4 else 0) ∧
      (sampleState.ParserState = 4 → s1.ParserState = 5) ∧
      (sampleState.ParserState = 5 → s1.ParserState = 6 ∧ s1.PayloadCount = 0) ∧
      (sampleState.ParserState = 6 → s1.PayloadCount = sampleState.PayloadCount + 1 ∧
        s1.ParserState = if sampleState.PayloadCount + 1 = 84 then 7 else 6) ∧
      (sampleState.ParserState = 7 → s1.ParserState = 8) ∧
      (sampleState.ParserState = 8 → s1.ParserState = 0) :=
  C12_transition_table 5 sampleState 0xB5 (Producible.built 1000 zeroMsg zeroMsg (by decide))

/-- C13 (amended): for every parser state with `ParserState` 0 whose working
record holds `Class` 0x01 and `ID` 0x07, every pair of length bytes `lo`, `hi`
(also with `lo + 256 * hi` different from 84) and every 84 payload bytes `p`,
the frame `B5 62 01 07 lo hi`, `p` and the two checksum bytes computed over
`01 07 lo hi` and `p` is accepted: `MessageNumber` is one greater mod 2^32,
`CRC_OK` is true, `PVT` holds the payload `p` and
`PVT.PayloadLength = lo + 256 * hi`. -/
theorem C13_length_not_validated (clk : Nat → Nat) (i : Nat) (s : State) (lo hi : Nat)
    (p : List Nat) (h0 : s.ParserState = 0) (hc : s.WorkingPVT.Class = 0x01)
    (hi7 : s.WorkingPVT.ID = 0x07) (hw : s.WorkingPVT.payload.length = 84)
    (hlo : lo < 256) (hhi : hi < 256) (hp : p.length = 84) (hb : ∀ b ∈ p, b < 256) :
    ∃ s1,
      feedAll clk i s
          (0xB5 :: 0x62 :: 0x01 :: 0x07 :: lo :: hi :: (p ++
            [CalcChecksum (0x01 :: 0x07 :: lo :: hi :: p) 88 / 256,
              CalcChecksum (0x01 :: 0x07 :: lo :: hi :: p) 88 % 256])) = some s1 ∧
        s1.MessageNumber = (s.MessageNumber + 1) % 2 ^ 32 ∧ s1.CRC_OK = true ∧
        s1.PVT.payload = p ∧ s1.PVT.PayloadLength = lo + 256 * hi ∧
        s1.PVT = { Class := 0x01, ID := 0x07, PayloadLength := lo + 256 * hi, payload := p } := by
  have hr : NAVPVTMsg.WF ⟨0x01, 0x07, lo + 256 * hi, p⟩ :=
    ⟨by norm_num, by norm_num, by show lo + 256 * hi < 65536; omega, hp, hb⟩
  have hl1 : (lo + 256 * hi) % 256 = lo := by omega
  have hl2 : (lo + 256 * hi) / 256 % 256 = hi := by omega
  have henc : encode ⟨0x01, 0x07, lo + 256 * hi, p⟩
      = 0xB5 :: 0x62 :: 0x01 :: 0x07 :: lo :: hi :: (p ++
          [CalcChecksum (0x01 :: 0x07 :: lo :: hi :: p) 88 / 256,
            CalcChecksum (0x01 :: 0x07 :: lo :: hi :: p) 88 % 256]) := by
    simp [encode, NAVPVTMsg.bytes, UBLOX_HEADER1, UBLOX_HEADER2, NAVPVTMsg.sizeof, hl1, hl2]
  have hacc := accept_explicit clk i s ⟨0x01, 0x07, lo + 256 * hi, p⟩ h0 hc hi7 hw hr rfl rfl
  rw [henc] at hacc
  exact ⟨_, hacc, rfl, rfl, rfl, rfl, rfl⟩

/-- C13, witness: a freshly constructed parser fed a frame that declares a
length of 16 and carries 84 payload bytes. -/
theorem C13_length_not_validated_witness :
    ∃ s1,
      feedAll (fun n => n) 0 sampleState
          (0xB5 :: 0x62 :: 0x01 :: 0x07 :: 0x10 :: 0x00 :: (sampleRecord.payload ++
            [CalcChecksum (0x01 :: 0x07 :: 0x10 :: 0x00 :: sampleRecord.payload) 88 / 256,
              CalcChecksum (0x01 :: 0x07 :: 0x10 :: 0x00 :: sampleRecord.payload) 88 % 256]))
          = some s1 ∧
        s1.MessageNumber = (sampleState.MessageNumber + 1) % 2 ^ 32 ∧ s1.CRC_OK = true ∧
        s1.PVT.payload = sampleRecord.payload ∧ s1.PVT.PayloadLength = 0x10 + 256 * 0x00 ∧
        s1.PVT = { Class := 0x01, ID := 0x07, PayloadLength := 0x10 + 256 * 0x00,
                   payload := sampleRecord.payload } :=
  C13_length_not_validated (fun n => n) 0 sampleState 0x10 0x00 sampleRecord.payload
    (by decide) (by decide) (by decide) (by decide) (by decide) (by decide) (by decide)
    (by decide)

/-- C13, counterexample: `fullCounterState` is a constructed parser whose public
`MessageNumber` was assigned 2^32 - 1; `shortLengthFrame` is accepted and leaves
`MessageNumber = 0`, which is not one greater. -/
theorem C13_counterexample :
    Producible fullCounterState ∧ fullCounterState.ParserState = 0 ∧
      fullCounterState.MessageNumber = 4294967295 ∧
      (feedAll (fun n => n) 0 fullCounterState shortLengthFrame).map
        (fun s1 => (s1.MessageNumber, s1.CRC_OK)) = some (0, true) :=
  ⟨Producible.messageNumberAssigned sampleState (2 ^ 32 - 1)
      (Producible.built 1000 zeroMsg zeroMsg (by decide)),
    by decide⟩

/-- C14: for every parser state with `ParserState` 4 and every sequence of 88
bytes, whatever their values, the parser is in state 5 after the first byte,
in state 6 after each of the first 2..85 bytes, in state 7 after 86, in state 8
after 87, and in state 0 after 88 and not before; so only the 88th call runs
`case 8`, and `PVT`, `CRC_OK`, the counters and the callback log are untouched
by the first 87 bytes. -/
theorem C14_fixed_framing (clk : Nat → Nat) (i : Nat) (s : State) (bs : List Nat)
    (h4 : s.ParserState = 4) (hlen : bs.length = 88) :
    ∀ n, n ≤ 88 →
      ∃ sn, feedAll clk i s (bs.take n) = some sn ∧
        (n = 1 → sn.ParserState = 5) ∧
        (2 ≤ n ∧ n ≤ 85 → sn.ParserState = 6) ∧
        (n = 86 → sn.ParserState = 7) ∧
        (n = 87 → sn.ParserState = 8) ∧
        (n = 88 → sn.ParserState = 0) ∧
        (n < 88 → sn.ParserState ≠ 0) ∧
        (sn.ParserState = 8 ↔ n = 87) ∧
        (n ≤ 87 → sn.PVT = s.PVT ∧ sn.CRC_OK = s.CRC_OK ∧
          sn.MessageNumber = s.MessageNumber ∧ sn.FixNumber = s.FixNumber ∧
          sn.LastValidPositionAge = s.LastValidPositionAge ∧
          sn.CallbackLog = s.CallbackLog) := by
  intro n hn
  obtain ⟨lo, hi, p, a, b, hp, rfl⟩ := frame_shape_of_length bs hlen
  obtain ⟨sn, hrun, hst⟩ := framing_run clk i s lo hi p a b h4 hp n hn
  refine ⟨sn, hrun, ?_, ?_, ?_, ?_, ?_, ?_, ?_, ?_⟩
  · intro h; rw [hst, h]; rfl
  · intro h
    rw [hst]
    unfold framingState
    rw [if_neg (by omega), if_neg (by omega), if_pos (by omega)]
  · intro h; rw [hst, h]; rfl
  · intro h; rw [hst, h]; rfl
  · intro h; rw [hst, h]; rfl
  · intro h
    rw [hst]
    unfold framingState
    split_ifs <;> omega
  · rw [hst]
    unfold framingState
    constructor
    · intro h
      split_ifs at h <;> omega
    · intro h
      rw [h]
      rfl
  · intro h
    have hinv : Inv s := by simp [Inv, h4]
    have hd : dist s = 87 := by simp [dist, h4]
    obtain ⟨s1, hs1, hsame, _⟩ := short_run clk ((lo :: hi :: (p ++ [a, b])).take n) i s hinv
      (by rw [hd, List.length_take]; omega)
    rw [hrun] at hs1
    cases hs1
    exact hsame

/-- C14, witness: a parser in state 4 fed 88 bytes equal to 0xB5, read after 86
of them. -/
theorem C14_fixed_framing_witness :
    ∃ sn, feedAll (fun n => n) 0 sampleState4
        ((List.replicate 88 0xB5).take 86) = some sn ∧
      (86 = 1 → sn.ParserState = 5) ∧
      (2 ≤ 86 ∧ 86 ≤ 85 → sn.ParserState = 6) ∧
      (86 = 86 → sn.ParserState = 7) ∧
      (86 = 87 → sn.ParserState = 8) ∧
      (86 = 88 → sn.ParserState = 0) ∧
      (86 < 88 → sn.ParserState ≠ 0) ∧
      (sn.ParserState = 8 ↔ 86 = 87) ∧
      (86 ≤ 87 → sn.PVT = sampleState4.PVT ∧
        sn.CRC_OK = sampleState4.CRC_OK ∧
        sn.MessageNumber = sampleState4.MessageNumber ∧
        sn.FixNumber = sampleState4.FixNumber ∧
        sn.LastValidPositionAge
          = sampleState4.LastValidPositionAge ∧
        sn.CallbackLog = sampleState4.CallbackLog) :=
  C14_fixed_framing (fun n => n) 0 sampleState4
    (List.replicate 88 0xB5) (by decide) (by decide) 86 (by decide)

/-- C15: every byte sequence fed to a constructed parser is consumed (no store
through `PayloadPtr` is undefined), and in the state reached `ParserState` is in
0..8; whenever it is 6, `PayloadCount` is at most 83, `PayloadPtr` is
`PayloadCount` bytes past `iTOW` (so not `NULL`), and the next `FeedMe(ch)` stores
`ch` at that payload offset of `WorkingPVT` and changes nothing else in it,
whatever length the frame declared. -/
theorem C15_bounded_payload_writes (clk : Nat → Nat) (i t0 : Nat) (pvt0 work0 : NAVPVTMsg)
    (bs : List Nat) :
    ∃ s, feedAll clk i (ctor t0 pvt0 work0) bs = some s ∧ s.ParserState ≤ 8 ∧
      s.WorkingPVT.payload.length = work0.payload.length ∧
      (s.ParserState = 6 →
        s.PayloadCount ≤ 83 ∧ s.PayloadPtr = some s.PayloadCount ∧
        ∀ (t ch : Nat), ∃ s1, FeedMe t s ch = some s1 ∧
          s1.WorkingPVT
            = { s.WorkingPVT with payload := s.WorkingPVT.payload.set s.PayloadCount ch }) := by
  have h0 : (ctor t0 pvt0 work0).ParserState ≤ 8 := by simp [ctor]
  have hinv0 : Inv (ctor t0 pvt0 work0) := by simp [Inv, ctor]
  obtain ⟨s, hs, h8, hinv⟩ := reachable_inv clk bs i (ctor t0 pvt0 work0) h0 hinv0
  refine ⟨s, hs, h8, (reachable_expected_header clk bs i _ s hs).2.2, ?_⟩
  intro h6
  obtain ⟨hptr, hc⟩ := hinv h6
  exact ⟨by omega, hptr, fun t ch => FeedMe_6_write t s ch h6 hptr hc⟩

/-- C15, witness: a constructed parser fed a header that declares a length of
0xFFFF and three payload bytes. -/
theorem C15_bounded_payload_writes_witness :
    ∃ s, feedAll (fun n => n) 0 (ctor 1000 zeroMsg zeroMsg)
        [0xB5, 0x62, 0x01, 0x07, 0xFF, 0xFF, 1, 2, 3] = some s ∧
      s.ParserState ≤ 8 ∧
      s.WorkingPVT.payload.length = zeroMsg.payload.length ∧
      (s.ParserState = 6 →
        s.PayloadCount ≤ 83 ∧ s.PayloadPtr = some s.PayloadCount ∧
        ∀ (t ch : Nat), ∃ s1, FeedMe t s ch = some s1 ∧
          s1.WorkingPVT
            = { s.WorkingPVT with payload := s.WorkingPVT.payload.set s.PayloadCount ch }) :=
  C15_bounded_payload_writes (fun n => n) 0 1000 zeroMsg zeroMsg
    [0xB5, 0x62, 0x01, 0x07, 0xFF, 0xFF, 1, 2, 3]

/-- C16: in state 1 `FeedMe(0xB5)` sets `ParserState` to 0, not 1; and for every
parser state with `ParserState` 0 and every valid frame `encode r`, feeding the
byte 0xB5 and then the 92 bytes of the frame commits nothing: `PVT`, `CRC_OK`,
`MessageNumber` and `FixNumber` (and the time stamp and the callback log) are
after the 93 bytes what they were before. -/
theorem C16_rejecting_byte_not_retried (clk : Nat → Nat) (i : Nat) (s : State)
    (r : NAVPVTMsg) (h0 : s.ParserState = 0) (hr : r.WF) (hrc : r.Class = 0x01)
    (hri : r.ID = 0x07) :
    (∀ (t : Nat) (s1 : State), s1.ParserState = 1 →
        ∃ s2, FeedMe t s1 0xB5 = some s2 ∧ s2.ParserState = 0) ∧
      (0xB5 :: encode r).length = 93 ∧
      ∃ s93, feedAll clk i s (0xB5 :: encode r) = some s93 ∧
        s93.PVT = s.PVT ∧ s93.CRC_OK = s.CRC_OK ∧ s93.MessageNumber = s.MessageNumber ∧
        s93.FixNumber = s.FixNumber ∧ s93.LastValidPositionAge = s.LastValidPositionAge ∧
        s93.CallbackLog = s.CallbackLog := by
  refine ⟨?_, by simp [encode, NAVPVTMsg.bytes, hr.2.2.2.1], ?_⟩
  · intro t s1 h1
    refine ⟨{ s1 with ParserState := 0 }, ?_, rfl⟩
    simp [FeedMe, ParseNAV_PVTMessage, h1, UBLOX_HEADER2]
  · rw [encode_eq r hrc hri, feed_double_sync clk i s _ h0]
    have hinv : Inv s := by simp [Inv, h0]
    have hd : dist s = 91 := by simp [dist, h0]
    obtain ⟨s93, hrun, hsame, _⟩ := short_run clk _ (i + 2) s hinv
      (show (0x62 :: 0x01 :: 0x07 :: (r.PayloadLength % 256) :: (r.PayloadLength / 256 % 256) ::
        (r.payload ++ [CalcChecksum r.bytes 88 / 256, CalcChecksum r.bytes 88 % 256])).length
          ≤ dist s by
        rw [hd]
        simp [hr.2.2.2.1])
    exact ⟨s93, hrun, hsame⟩

/-- C16, witness: a freshly constructed parser fed 0xB5 and then the frame of
`sampleRecord`. -/
theorem C16_rejecting_byte_not_retried_witness :
    (∀ (t : Nat) (s1 : State), s1.ParserState = 1 →
        ∃ s2, FeedMe t s1 0xB5 = some s2 ∧ s2.ParserState = 0) ∧
      (0xB5 :: encode sampleRecord).length = 93 ∧
      ∃ s93, feedAll (fun n => n) 0 sampleState (0xB5 :: encode sampleRecord) = some s93 ∧
        s93.PVT = sampleState.PVT ∧ s93.CRC_OK = sampleState.CRC_OK ∧
        s93.MessageNumber = sampleState.MessageNumber ∧
        s93.FixNumber = sampleState.FixNumber ∧
        s93.LastValidPositionAge = sampleState.LastValidPositionAge ∧
        s93.CallbackLog = sampleState.CallbackLog :=
  C16_rejecting_byte_not_retried (fun n => n) 0 sampleState sampleRecord (by decide)
    (by decide) (by decide) (by decide)

/-- C17 (amended): for every parser state with `ParserState` 0 whose working
record holds `Class` 0x01 and `ID` 0x07 and every non-empty list `rs` of valid
frames, feeding the concatenation of the frames increases `MessageNumber` by
the number of frames mod 2^32, increases `FixNumber` by the number of frames
whose `fixType` is neither 0 nor 5 mod 2^32, leaves `ParserState = 0` and
`CRC_OK = true`, and leaves `PVT` equal to the record of the last frame. -/
theorem C17_back_to_back_frames (clk : Nat → Nat) (i : Nat) (s : State)
    (rs : List NAVPVTMsg) (h0 : s.ParserState = 0) (hc : s.WorkingPVT.Class = 0x01)
    (hi7 : s.WorkingPVT.ID = 0x07) (hw : s.WorkingPVT.payload.length = 84)
    (hF : s.FixNumber < 2 ^ 32) (hne : rs ≠ [])
    (hrs : ∀ r ∈ rs, r.WF ∧ r.Class = 0x01 ∧ r.ID = 0x07) :
    ∃ s1, feedAll clk i s (rs.map encode).flatten = some s1 ∧
      s1.MessageNumber = (s.MessageNumber + rs.length) % 2 ^ 32 ∧
      s1.FixNumber = (s.FixNumber +
        (rs.filter (fun r => decide (r.fixType ≠ 0 ∧ r.fixType ≠ 5))).length) % 2 ^ 32 ∧
      s1.ParserState = 0 ∧ s1.CRC_OK = true ∧ s1.PVT = rs.getLast hne := by
  match rs, hne, hrs with
  | r :: rest, _, hrs =>
    obtain ⟨s1, hrun, hst, hm, hf, hcrc, hlast⟩ :=
      back_to_back clk rest r i s h0 hc hi7 hw hF hrs
    exact ⟨s1, hrun, hm, hf, hst, hcrc, hlast⟩

/-- C17, witness: a freshly constructed parser fed the frame of `sampleRecord`
(`fixType` 3) and then the frame of `timeOnlyRecord` (`fixType` 5). -/
theorem C17_back_to_back_frames_witness :
    ∃ s1, feedAll (fun n => n) 0 sampleState
        ([sampleRecord, timeOnlyRecord].map encode).flatten = some s1 ∧
      s1.MessageNumber = (sampleState.MessageNumber + [sampleRecord, timeOnlyRecord].length)
        % 2 ^ 32 ∧
      s1.FixNumber = (sampleState.FixNumber +
        ([sampleRecord, timeOnlyRecord].filter
          (fun r => decide (r.fixType ≠ 0 ∧ r.fixType ≠ 5))).length) % 2 ^ 32 ∧
      s1.ParserState = 0 ∧ s1.CRC_OK = true ∧
      s1.PVT = [sampleRecord, timeOnlyRecord].getLast (by decide) :=
  C17_back_to_back_frames (fun n => n) 0 sampleState [sampleRecord, timeOnlyRecord]
    (by decide) (by decide) (by decide) (by decide) (by decide) (by decide) (by decide)

/-- C17, counterexample: `fullCounterState` is a constructed parser whose public
`MessageNumber` was assigned 2^32 - 1; two valid frames leave `MessageNumber = 1`,
which is not 2 greater. -/
theorem C17_counterexample :
    Producible fullCounterState ∧ fullCounterState.ParserState = 0 ∧
      fullCounterState.MessageNumber = 4294967295 ∧
      (∀ r ∈ [sampleRecord, timeOnlyRecord], r.WF ∧ r.Class = 0x01 ∧ r.ID = 0x07) ∧
      (feedAll (fun n => n) 0 fullCounterState
        ([sampleRecord, timeOnlyRecord].map encode).flatten).map
          (fun s1 => s1.MessageNumber) = some 1 :=
  ⟨Producible.messageNumberAssigned sampleState (2 ^ 32 - 1)
      (Producible.built 1000 zeroMsg zeroMsg (by decide)),
    by decide⟩

/-- C18: when a `FeedMe` call at true time `t0` commits a valid fix and no later
call commits one, `PositionFixAge()` called at true time `t` with
`0 <= t - t0 < 2^32` returns exactly `t - t0`, whether or not the 32-bit clock
wrapped in between; the result is `(millis() - LastValidPositionAge) mod 2^32`. -/
theorem C18_fix_age_wraparound (clk : Nat → Nat) (i : Nat) (s8 : State) (ch : Nat)
    (t0 t : Nat) (hfix : commitsFix s8 ch = true) (h0 : t0 ≤ t) (h1 : t - t0 < 2 ^ 32) :
    ∃ s1, FeedMe t0 s8 ch = some s1 ∧ s1.LastValidPositionAge = t0 % 2 ^ 32 ∧
      ∀ (bs : List Nat) (s2 : State), noFixCommitted clk i s1 bs = true →
        feedAll clk i s1 bs = some s2 →
        PositionFixAge t s2 = t - t0 ∧
          PositionFixAge t s2 = (t % 2 ^ 32 + 2 ^ 32 - s2.LastValidPositionAge) % 2 ^ 32 := by
  obtain ⟨s1, hs1, hstamp⟩ := FeedMe_commitsFix t0 s8 ch hfix
  refine ⟨s1, hs1, hstamp, ?_⟩
  intro bs s2 hq hrun
  have h := (noFixCommitted_stamp clk bs i s1 s2 hq hrun).trans hstamp
  simp only [PositionFixAge, millis, h] at *
  omega

/-- C18, witness: a fix stamped at true time 2^32 - 10 (clock 4294967286) and
read at true time 2^32 + 5 (clock 5): the age is 15. -/
theorem C18_fix_age_wraparound_witness :
    ∃ s1, FeedMe 4294967286 sampleState8 sampleLastByte = some s1 ∧
      s1.LastValidPositionAge = 4294967286 % 2 ^ 32 ∧
      ∀ (bs : List Nat) (s2 : State), noFixCommitted (fun n => n) 0 s1 bs = true →
        feedAll (fun n => n) 0 s1 bs = some s2 →
        PositionFixAge 4294967301 s2 = 4294967301 - 4294967286 ∧
          PositionFixAge 4294967301 s2
            = (4294967301 % 2 ^ 32 + 2 ^ 32 - s2.LastValidPositionAge) % 2 ^ 32 :=
  C18_fix_age_wraparound (fun n => n) 0 sampleState8 sampleLastByte 4294967286 4294967301
    (by decide) (by decide) (by decide)

/-- C19: for every byte sequence `b_0 .. b_(n-1)` the high byte of `CalcChecksum`
is the sum of the bytes mod 256 and the low byte is the sum of `(n - i) * b_i`
mod 256; so replacing one byte by a different byte value changes the high byte
of the result. -/
theorem C19_checksum_closed_form (bs : List Nat) :
    CalcChecksum bs bs.length / 256 = bs.sum % 256 ∧
      CalcChecksum bs bs.length % 256
        = ((List.range bs.length).map (fun i => (bs.length - i) * bs.getD i 0)).sum % 256 ∧
      ∀ (j v : Nat), j < bs.length → bs.getD j 0 < 256 → v < 256 → v ≠ bs.getD j 0 →
        CalcChecksum (bs.set j v) (bs.set j v).length / 256
          ≠ CalcChecksum bs bs.length / 256 := by
  refine ⟨CalcChecksum_high bs, CalcChecksum_low bs, ?_⟩
  intro j v hj hx hv hne h
  rw [CalcChecksum_high, CalcChecksum_high] at h
  have hsum := sum_set_add bs j v hj
  omega

/-- C19, witness: the 88 bytes of `sampleRecord`, with byte 24 (`fixType`)
changed from 3 to 4. -/
theorem C19_checksum_closed_form_witness :
    CalcChecksum sampleRecord.bytes sampleRecord.bytes.length / 256
        = sampleRecord.bytes.sum % 256 ∧
      CalcChecksum sampleRecord.bytes sampleRecord.bytes.length % 256
        = ((List.range sampleRecord.bytes.length).map
            (fun i => (sampleRecord.bytes.length - i) * sampleRecord.bytes.getD i 0)).sum % 256 ∧
      CalcChecksum (sampleRecord.bytes.set 24 4) (sampleRecord.bytes.set 24 4).length / 256
        ≠ CalcChecksum sampleRecord.bytes sampleRecord.bytes.length / 256 :=
  ⟨(C19_checksum_closed_form sampleRecord.bytes).1,
    (C19_checksum_closed_form sampleRecord.bytes).2.1,
    (C19_checksum_closed_form sampleRecord.bytes).2.2 24 4 (by decide) (by decide) (by decide)
      (by decide)⟩

end uBloxGPS
